import Mathlib

/-!
Shallow embedding of the WidowX robotic-arm motion-control library
(WidowX.cpp) and proofs about it.

Conventions used throughout:
* C arrays of the class (id[6], current_position[6], current_angle[6],
  desired_position[6], desired_angle[6]) are modelled as total functions
  from the index type; an access outside 0..5 reads the adjacent memory
  slot the function assigns to that index.
* float arithmetic is modelled exactly, over an arbitrary linear ordered
  field (instantiated at ℚ for the executable parts and at ℝ for the
  trigonometric inverse-kinematics parts).
* bus reads (the ax12 GetPosition calls) are modelled by an oracle
  function giving the result of the k-th read; delays are dropped.
-/

namespace WidowX

/-- C math.h round: round half away from zero (used by angleToPosition). -/
def cround {F : Type*} [LinearOrderedField F] [FloorRing F] (x : F) : ℤ :=
  if 0 ≤ x then ⌊x + 1 / 2⌋ else -⌊-x + 1 / 2⌋

/-- WidowX::positionToAngle (WidowX.cpp lines 717-731), raw count to radians. -/
def positionToAngle {F : Type*} [LinearOrderedField F] (idx : ℤ) (position : ℤ) : F :=
  if idx = 0 ∨ idx = 3 ∨ idx = 2 then
    0.00153435538637 * ((position : F) - 2047.5)
  else if idx = 1 then
    -0.00153435538637 * ((position : F) - 2047.5)
  else
    0.00511826979472 * ((position : F) - 511.5)

/-- WidowX::angleToPosition (WidowX.cpp lines 733-749), radians to raw count. -/
def angleToPosition {F : Type*} [LinearOrderedField F] [FloorRing F] (idx : ℤ) (angle : F) : ℤ :=
  if idx = 0 ∨ idx = 3 ∨ idx = 2 then
    cround (651.739492 * angle + 2047.5)
  else if idx = 1 then
    cround (-651.739492 * angle + 2047.5)
  else
    cround (195.378524405 * angle + 511.5)

/-- The angular value of one raw count for the family of channel idx. -/
def countAngle {F : Type*} [LinearOrderedField F] (idx : ℤ) : F :=
  if idx = 0 ∨ idx = 3 ∨ idx = 2 ∨ idx = 1 then 0.00153435538637 else 0.00511826979472

/-- Half-width of the raw count range for the family of channel idx
(counts 0..4095 centred at 2047.5, or 0..1023 centred at 511.5). -/
def halfRange {F : Type*} [LinearOrderedField F] (idx : ℤ) : F :=
  if idx = 0 ∨ idx = 3 ∨ idx = 2 ∨ idx = 1 then 2047.5 else 511.5

theorem cround_sub_abs_le {F : Type*} [LinearOrderedField F] [FloorRing F] (x : F) :
    |(cround x : F) - x| ≤ 1 / 2 := by
  unfold cround
  split
  · have h1 : (⌊x + 1 / 2⌋ : F) ≤ x + 1 / 2 := Int.floor_le _
    have h2 : x + 1 / 2 - 1 < (⌊x + 1 / 2⌋ : F) := Int.sub_one_lt_floor _
    rw [abs_le]
    constructor <;> linarith
  · push_cast
    have h1 : (⌊-x + 1 / 2⌋ : F) ≤ -x + 1 / 2 := Int.floor_le _
    have h2 : -x + 1 / 2 - 1 < (⌊-x + 1 / 2⌋ : F) := Int.sub_one_lt_floor _
    rw [abs_le]
    constructor <;> linarith

theorem roundtrip_core (k1 k2 off A a : ℚ) (hk1 : 0 < k1)
    (hprod : |k1 * k2 - 1| * A ≤ k1 / 2) (ha : |a| ≤ A) :
    |k1 * ((cround (k2 * a + off) : ℚ) - off) - a| ≤ k1 := by
  have hr := cround_sub_abs_le (k2 * a + off)
  have hsplit : k1 * ((cround (k2 * a + off) : ℚ) - off) - a =
      k1 * ((cround (k2 * a + off) : ℚ) - (k2 * a + off)) + (k1 * k2 - 1) * a := by
    ring
  rw [hsplit]
  calc |k1 * ((cround (k2 * a + off) : ℚ) - (k2 * a + off)) + (k1 * k2 - 1) * a|
      ≤ |k1 * ((cround (k2 * a + off) : ℚ) - (k2 * a + off))| + |(k1 * k2 - 1) * a| :=
        abs_add _ _
    _ = k1 * |(cround (k2 * a + off) : ℚ) - (k2 * a + off)| + |k1 * k2 - 1| * |a| := by
        rw [abs_mul, abs_mul, abs_of_pos hk1]
    _ ≤ k1 * (1 / 2) + |k1 * k2 - 1| * A := by
        have h1 : k1 * |(cround (k2 * a + off) : ℚ) - (k2 * a + off)| ≤ k1 * (1 / 2) :=
          mul_le_mul_of_nonneg_left hr hk1.le
        have h2 : |k1 * k2 - 1| * |a| ≤ |k1 * k2 - 1| * A :=
          mul_le_mul_of_nonneg_left ha (abs_nonneg _)
        linarith
    _ ≤ k1 := by linarith

theorem positionToAngle_fam_A {F : Type*} [LinearOrderedField F] {idx : ℤ} (p : ℤ)
    (h : idx = 0 ∨ idx = 3 ∨ idx = 2) :
    positionToAngle idx p = (0.00153435538637 : F) * ((p : F) - 2047.5) := by
  unfold positionToAngle
  rw [if_pos h]

theorem positionToAngle_fam_inv {F : Type*} [LinearOrderedField F] (p : ℤ) :
    positionToAngle 1 p = (-0.00153435538637 : F) * ((p : F) - 2047.5) := by
  unfold positionToAngle
  rw [if_neg (by decide), if_pos rfl]

theorem positionToAngle_fam_B {F : Type*} [LinearOrderedField F] {idx : ℤ} (p : ℤ)
    (h : ¬(idx = 0 ∨ idx = 3 ∨ idx = 2)) (h1 : ¬idx = 1) :
    positionToAngle idx p = (0.00511826979472 : F) * ((p : F) - 511.5) := by
  unfold positionToAngle
  rw [if_neg h, if_neg h1]

theorem angleToPosition_fam_A {F : Type*} [LinearOrderedField F] [FloorRing F] {idx : ℤ} (a : F)
    (h : idx = 0 ∨ idx = 3 ∨ idx = 2) :
    angleToPosition idx a = cround (651.739492 * a + 2047.5) := by
  unfold angleToPosition
  rw [if_pos h]

theorem angleToPosition_fam_inv {F : Type*} [LinearOrderedField F] [FloorRing F] (a : F) :
    angleToPosition 1 a = cround (-651.739492 * a + 2047.5) := by
  unfold angleToPosition
  rw [if_neg (by decide), if_pos rfl]

theorem angleToPosition_fam_B {F : Type*} [LinearOrderedField F] [FloorRing F] {idx : ℤ} (a : F)
    (h : ¬(idx = 0 ∨ idx = 3 ∨ idx = 2)) (h1 : ¬idx = 1) :
    angleToPosition idx a = cround (195.378524405 * a + 511.5) := by
  unfold angleToPosition
  rw [if_neg h, if_neg h1]

/-- C3: for every channel index 0..5 and every angle within the family's valid
range, converting to a raw count (rounding to nearest) and back recovers the
angle to within the angular value of one raw count. -/
theorem roundtrip_within_one_count (idx : ℤ) (a : ℚ)
    (hlo : 0 ≤ idx) (hhi : idx < 6)
    (ha : |a| ≤ countAngle idx * halfRange idx) :
    |positionToAngle idx (angleToPosition idx a) - a| ≤ countAngle idx := by
  have hprodA : |(0.00153435538637 : ℚ) * 651.739492 - 1| *
      ((0.00153435538637 : ℚ) * 2047.5) ≤ (0.00153435538637 : ℚ) / 2 := by
    rw [abs_of_pos (by norm_num)]
    norm_num
  have hprodB : |(0.00511826979472 : ℚ) * 195.378524405 - 1| *
      ((0.00511826979472 : ℚ) * 511.5) ≤ (0.00511826979472 : ℚ) / 2 := by
    rw [abs_of_neg (by norm_num)]
    norm_num
  have hca : ∀ j : ℤ, (j = 0 ∨ j = 3 ∨ j = 2 ∨ j = 1) →
      (countAngle j : ℚ) = 0.00153435538637 ∧ (halfRange j : ℚ) = 2047.5 := by
    intro j hj
    unfold countAngle halfRange
    rw [if_pos hj, if_pos hj]
    exact ⟨rfl, rfl⟩
  have hcb : ∀ j : ℤ, ¬(j = 0 ∨ j = 3 ∨ j = 2 ∨ j = 1) →
      (countAngle j : ℚ) = 0.00511826979472 ∧ (halfRange j : ℚ) = 511.5 := by
    intro j hj
    unfold countAngle halfRange
    rw [if_neg hj, if_neg hj]
    exact ⟨rfl, rfl⟩
  interval_cases idx
  · obtain ⟨h1, h2⟩ := hca 0 (by decide)
    rw [h1, h2] at ha
    rw [h1, angleToPosition_fam_A a (by decide), positionToAngle_fam_A _ (by decide)]
    exact roundtrip_core _ _ _ _ a (by norm_num) hprodA ha
  · obtain ⟨h1, h2⟩ := hca 1 (by decide)
    rw [h1, h2] at ha
    rw [h1, angleToPosition_fam_inv a, positionToAngle_fam_inv]
    have hrw : (-0.00153435538637 : ℚ) * ((cround (-651.739492 * a + 2047.5) : ℚ) - 2047.5) - a
        = -((0.00153435538637 : ℚ) *
            ((cround ((651.739492 : ℚ) * (-a) + 2047.5) : ℚ) - 2047.5) - (-a)) := by
      rw [show ((-651.739492 : ℚ) * a) = (651.739492 : ℚ) * (-a) by ring]
      ring
    rw [hrw, abs_neg]
    exact roundtrip_core _ _ _ _ (-a) (by norm_num) hprodA (by rwa [abs_neg])
  · obtain ⟨h1, h2⟩ := hca 2 (by decide)
    rw [h1, h2] at ha
    rw [h1, angleToPosition_fam_A a (by decide), positionToAngle_fam_A _ (by decide)]
    exact roundtrip_core _ _ _ _ a (by norm_num) hprodA ha
  · obtain ⟨h1, h2⟩ := hca 3 (by decide)
    rw [h1, h2] at ha
    rw [h1, angleToPosition_fam_A a (by decide), positionToAngle_fam_A _ (by decide)]
    exact roundtrip_core _ _ _ _ a (by norm_num) hprodA ha
  · obtain ⟨h1, h2⟩ := hcb 4 (by decide)
    rw [h1, h2] at ha
    rw [h1, angleToPosition_fam_B a (by decide) (by decide),
      positionToAngle_fam_B _ (by decide) (by decide)]
    exact roundtrip_core _ _ _ _ a (by norm_num) hprodB ha
  · obtain ⟨h1, h2⟩ := hcb 5 (by decide)
    rw [h1, h2] at ha
    rw [h1, angleToPosition_fam_B a (by decide) (by decide),
      positionToAngle_fam_B _ (by decide) (by decide)]
    exact roundtrip_core _ _ _ _ a (by norm_num) hprodB ha

/-- Witness for C3 at channel 0, angle 1 rad. -/
theorem roundtrip_within_one_count_witness :
    (0 : ℤ) ≤ 0 ∧ (0 : ℤ) < 6 ∧ |(1 : ℚ)| ≤ countAngle 0 * halfRange 0 ∧
      |(positionToAngle 0 (angleToPosition 0 (1 : ℚ)) : ℚ) - 1| ≤ (countAngle (0 : ℤ) : ℚ) :=
  ⟨le_refl _, by norm_num, by norm_num [countAngle, halfRange],
    roundtrip_within_one_count 0 1 (le_refl _) (by norm_num)
      (by norm_num [countAngle, halfRange])⟩

/-- WidowX::cubeInterpolation (WidowX.cpp lines 768-784): coefficients of the
cubic trajectory polynomial, computed as M_inv * params where params holds
(start position, goal position, start velocity, end velocity). -/
def cubeInterpolation {F : Type*} [Field F] (params : Fin 4 → F) (time : F) : Fin 4 → F :=
  let tf_1_2 : F := 1 / time ^ 2
  let tf_2_3 : F := 2 / time ^ 3
  let tf_3_2 : F := 3 * tf_1_2
  let M_inv : Matrix (Fin 4) (Fin 4) F :=
    !![1, 0, 0, 0;
       0, 0, 1, 0;
       -tf_3_2, tf_3_2, -2 / time, -1 / time;
       tf_2_3, -tf_2_3, tf_1_2, tf_1_2]
  M_inv.mulVec params

/-- C2: the cubic w(t) = w0 + w1 t + w2 t^2 + w3 t^3 built by cubeInterpolation
from boundary conditions (p0, p1, vel0 = 0, vel1 = 0) satisfies w(0) = p0,
w(T) = p1, w'(0) = 0 and w'(T) = 0, over exact arithmetic. -/
theorem cubeInterpolation_boundary (p0 p1 T : ℚ) (hT : 0 < T) :
    cubeInterpolation ![p0, p1, 0, 0] T 0 = p0 ∧
    cubeInterpolation ![p0, p1, 0, 0] T 0 +
      cubeInterpolation ![p0, p1, 0, 0] T 1 * T +
      cubeInterpolation ![p0, p1, 0, 0] T 2 * T ^ 2 +
      cubeInterpolation ![p0, p1, 0, 0] T 3 * T ^ 3 = p1 ∧
    cubeInterpolation ![p0, p1, 0, 0] T 1 = 0 ∧
    cubeInterpolation ![p0, p1, 0, 0] T 1 +
      2 * cubeInterpolation ![p0, p1, 0, 0] T 2 * T +
      3 * cubeInterpolation ![p0, p1, 0, 0] T 3 * T ^ 2 = 0 := by
  have hT0 : T ≠ 0 := ne_of_gt hT
  simp only [cubeInterpolation, Matrix.mulVec, Matrix.dotProduct, Fin.sum_univ_four,
    Matrix.cons_val', Matrix.cons_val_zero, Matrix.cons_val_one, Matrix.head_cons,
    Matrix.empty_val', Matrix.cons_val_fin_one, Matrix.head_fin_const, Matrix.cons_val_two,
    Matrix.tail_cons, Matrix.cons_val_three, Matrix.of_apply]
  refine ⟨by ring, ?_, by ring, ?_⟩
  · field_simp
    ring
  · field_simp
    ring

/-- Witness for C2 at p0 = 3, p1 = 7, T = 2. -/
theorem cubeInterpolation_boundary_witness :
    (0 : ℚ) < 2 ∧
    (cubeInterpolation (F := ℚ) ![3, 7, 0, 0] 2 0 = 3 ∧
     cubeInterpolation (F := ℚ) ![3, 7, 0, 0] 2 0 +
       cubeInterpolation (F := ℚ) ![3, 7, 0, 0] 2 1 * 2 +
       cubeInterpolation (F := ℚ) ![3, 7, 0, 0] 2 2 * 2 ^ 2 +
       cubeInterpolation (F := ℚ) ![3, 7, 0, 0] 2 3 * 2 ^ 3 = 7 ∧
     cubeInterpolation (F := ℚ) ![3, 7, 0, 0] 2 1 = 0 ∧
     cubeInterpolation (F := ℚ) ![3, 7, 0, 0] 2 1 +
       2 * cubeInterpolation (F := ℚ) ![3, 7, 0, 0] 2 2 * 2 +
       3 * cubeInterpolation (F := ℚ) ![3, 7, 0, 0] 2 3 * 2 ^ 2 = 0) :=
  ⟨by norm_num, cubeInterpolation_boundary 3 7 2 (by norm_num)⟩

/-- State of the WidowX controller object. The six-element C arrays are
modelled as total functions on ℤ; indices 0..5 are the array proper, any
other index denotes whatever adjacent memory an out-of-bounds access hits. -/
structure ArmState (F : Type*) where
  id : ℤ → ℤ
  current_position : ℤ → ℤ
  current_angle : ℤ → F
  desired_position : ℤ → ℤ
  desired_angle : ℤ → F
  isRelaxed : Bool

/-- Instruction byte for the ax12 synchronized write (value from ax12.h). -/
def AX_SYNC_WRITE : ℤ := 131

/-- Register address of the goal-position low byte (value from ax12.h). -/
def AX_GOAL_POSITION_L : ℤ := 30

/-- WidowX::syncWrite (WidowX.cpp lines 471-494): byte sequence written on the
bus for numServos active channels. temp & 0xff and temp >> 8 are written as
temp % 256 and temp / 256, which agree with the C operators for the
non-negative positions this function is fed. -/
def syncWrite {F : Type*} (numServos : ℕ) (st : ArmState F) : List ℤ :=
  let length : ℤ := 4 + (numServos * 3)
  let checksum : ℤ := 254 + length + AX_SYNC_WRITE + 2 + AX_GOAL_POSITION_L +
    ((List.range numServos).map (fun i : ℕ =>
      st.desired_position i % 256 + st.desired_position i / 256 + st.id i)).sum
  [255, 255, 254, length, AX_SYNC_WRITE, AX_GOAL_POSITION_L, 2] ++
    (List.range numServos).flatMap (fun i : ℕ =>
      [st.id i, st.desired_position i % 256, st.desired_position i / 256]) ++
    [255 - checksum % 256]

theorem sum_flatMap_triple (f g h : ℕ → ℤ) (n : ℕ) :
    (((List.range n).flatMap fun i => [f i, g i, h i]).sum) =
      ((List.range n).map fun i => f i + g i + h i).sum := by
  induction n with
  | zero => simp
  | succ m ih =>
      rw [List.range_succ]
      simp only [List.flatMap_append, List.map_append, List.sum_append, ih]
      simp
      ring

theorem syncWrite_middle_sum {F : Type*} (n : ℕ) (st : ArmState F) :
    (((syncWrite n st).drop 2).dropLast).sum =
      254 + (4 + (n : ℤ) * 3) + AX_SYNC_WRITE + 2 + AX_GOAL_POSITION_L +
        ((List.range n).map (fun i : ℕ =>
          st.id i + st.desired_position i % 256 + st.desired_position i / 256)).sum := by
  have key : ∀ (pre : List ℤ) (cs : ℤ), (pre ++ [cs]).dropLast = pre := fun pre cs => by simp
  simp only [syncWrite]
  simp only [List.cons_append, List.nil_append, List.drop_succ_cons, List.drop_zero]
  simp only [← List.cons_append]
  rw [key]
  rw [List.sum_cons, List.sum_cons, List.sum_cons, List.sum_cons, List.sum_cons,
    sum_flatMap_triple (fun i : ℕ => st.id i) (fun i : ℕ => st.desired_position i % 256)
      (fun i : ℕ => st.desired_position i / 256) n]
  ring

/-- C1: the byte sequence emitted by syncWrite for N active channels is exactly
the broadcast sync-write frame: 0xFF 0xFF 0xFE, length 4+3N, the sync-write
instruction, the goal-position-low register address, data width 2, then per
channel the bus id, position low byte and position high byte, terminated by a
checksum byte equal to 0xFF minus the sum, mod 256, of all frame bytes after
the two sync bytes; every emitted value fits in a byte. -/
theorem syncWrite_frame (n : ℕ) (st : ArmState ℚ) (hn1 : 1 ≤ n) (hn6 : n ≤ 6)
    (hid : ∀ i : ℕ, i < n → 0 ≤ st.id i ∧ st.id i < 256)
    (hpos : ∀ i : ℕ, i < n → 0 ≤ st.desired_position i ∧ st.desired_position i < 65536) :
    syncWrite n st =
      [255, 255, 254, 4 + 3 * (n : ℤ), AX_SYNC_WRITE, AX_GOAL_POSITION_L, 2] ++
        ((List.range n).flatMap fun i =>
          [st.id i, st.desired_position i % 256, st.desired_position i / 256]) ++
        [255 - ((((syncWrite n st).drop 2).dropLast).sum) % 256] ∧
    ∀ b ∈ syncWrite n st, 0 ≤ b ∧ b < 256 := by
  have hmap : (fun i : ℕ => st.desired_position i % 256 + st.desired_position i / 256 + st.id i)
      = fun i : ℕ => st.id i + st.desired_position i % 256 + st.desired_position i / 256 :=
    funext fun i => by ring
  constructor
  · rw [syncWrite_middle_sum, show (4 + 3 * (n : ℤ)) = 4 + (n : ℤ) * 3 from by ring]
    simp only [syncWrite]
    rw [hmap]
  · intro b hb
    simp only [syncWrite] at hb
    simp only [List.cons_append, List.nil_append, List.mem_append, List.mem_cons,
      List.not_mem_nil, or_false, List.mem_flatMap, List.mem_range] at hb
    have hn6' : (n : ℤ) ≤ 6 := by exact_mod_cast hn6
    rcases hb with h | h | h | h | h | h | h | ⟨i, hi, h | h | h⟩ | h
    · subst h; norm_num
    · subst h; norm_num
    · subst h; norm_num
    · subst h
      constructor
      · positivity
      · omega
    · subst h; unfold AX_SYNC_WRITE; norm_num
    · subst h; unfold AX_GOAL_POSITION_L; norm_num
    · subst h; norm_num
    · subst h; exact hid i hi
    · subst h
      exact ⟨Int.emod_nonneg _ (by norm_num), Int.emod_lt_of_pos _ (by norm_num)⟩
    · subst h
      obtain ⟨hp0, hp1⟩ := hpos i hi
      constructor
      · exact Int.ediv_nonneg hp0 (by norm_num)
      · omega
    · subst h
      have h1 : 0 ≤ (254 + (4 + (n : ℤ) * 3) + AX_SYNC_WRITE + 2 + AX_GOAL_POSITION_L +
          ((List.range n).map (fun i =>
            st.desired_position i % 256 + st.desired_position i / 256 + st.id i)).sum) % 256 :=
        Int.emod_nonneg _ (by norm_num)
      have h2 : (254 + (4 + (n : ℤ) * 3) + AX_SYNC_WRITE + 2 + AX_GOAL_POSITION_L +
          ((List.range n).map (fun i =>
            st.desired_position i % 256 + st.desired_position i / 256 + st.id i)).sum) % 256 < 256 :=
        Int.emod_lt_of_pos _ (by norm_num)
      omega

/-- Concrete controller state used by the batched-write scenario: bus ids
1,2,3,4 on the first four channels and pending positions 100,200,300,400. -/
def demoState : ArmState ℚ where
  id := fun i => i + 1
  current_position := fun _ => 0
  current_angle := fun _ => 0
  desired_position := fun i =>
    if i = 0 then 100 else if i = 1 then 200 else if i = 2 then 300
    else if i = 3 then 400 else 0
  desired_angle := fun _ => 0
  isRelaxed := false

/-- Witness for C1: the 4-channel scenario with ids 1..4 and goal positions
100,200,300,400, including the concrete frame with its recomputed checksum. -/
theorem syncWrite_frame_witness :
    ((1 : ℕ) ≤ 4 ∧ (4 : ℕ) ≤ 6) ∧
    (syncWrite 4 demoState =
      [255, 255, 254, 4 + 3 * ((4 : ℕ) : ℤ), AX_SYNC_WRITE, AX_GOAL_POSITION_L, 2] ++
        ((List.range 4).flatMap fun i =>
          [demoState.id i, demoState.desired_position i % 256,
            demoState.desired_position i / 256]) ++
        [255 - ((((syncWrite 4 demoState).drop 2).dropLast).sum) % 256] ∧
      ∀ b ∈ syncWrite 4 demoState, 0 ≤ b ∧ b < 256) ∧
    syncWrite 4 demoState =
      [255, 255, 254, 16, 131, 30, 2, 1, 100, 0, 2, 200, 0, 3, 44, 1, 4, 144, 1, 90] :=
  ⟨⟨by norm_num, by norm_num⟩,
    syncWrite_frame 4 demoState (by norm_num) (by norm_num)
      (fun i hi => by interval_cases i <;> simp [demoState])
      (fun i hi => by interval_cases i <;> simp [demoState]),
    by decide⟩

/-- The retry loop of WidowX::getServoPosition (WidowX.cpp lines 205-213):
attempts i, i+1, ..., 9 read the bus; the first non-sentinel value is kept,
and if attempt 10 is reached the cached value prev is restored. Returns the
stored value and the total number of reads consumed. The backoff delays are
dropped (pure timing). -/
def gpRetry (reads : ℕ → ℤ) (prev : ℤ) (i : ℕ) : ℤ × ℕ :=
  if h : i < 10 then
    if reads i = -1 then gpRetry reads prev (i + 1) else (reads i, i + 1)
  else (prev, 10)
termination_by 10 - i
decreasing_by omega

/-- WidowX::getServoPosition (WidowX.cpp lines 198-217). The oracle reads k
gives the result of the k-th GetPosition bus call of this invocation; the
value returned by the C function is the stored current_position idx. prev is
held in a uint16_t, hence the mod 2^16. Returns the new state and the number
of bus reads consumed. -/
def getServoPosition {F : Type*} [LinearOrderedField F] (reads : ℕ → ℤ) (idx : ℤ)
    (st : ArmState F) : ArmState F × ℕ :=
  let prev : ℤ := st.current_position idx % 65536
  let pc : ℤ × ℕ := if reads 0 = -1 then gpRetry reads prev 1 else (reads 0, 1)
  ({ st with
      current_position := Function.update st.current_position idx pc.1,
      current_angle := Function.update st.current_angle idx (positionToAngle idx pc.1) },
    pc.2)

/-- WidowX::getCurrentPosition (WidowX.cpp lines 173-179): reads channels
0..5 in order; the oracle is threaded through by read count. -/
def getCurrentPosition {F : Type*} [LinearOrderedField F] (reads : ℕ → ℤ)
    (st : ArmState F) : ArmState F × ℕ :=
  (List.range 6).foldl
    (fun (p : ArmState F × ℕ) (i : ℕ) =>
      let r := getServoPosition (fun k => reads (p.2 + k)) (i : ℤ) p.1
      (r.1, p.2 + r.2))
    (st, 0)

/-- WidowX::getServoAngle (WidowX.cpp lines 224-228): refreshes the position
then returns the cached angle. Returns (angle, new state, reads consumed). -/
def getServoAngle {F : Type*} [LinearOrderedField F] (reads : ℕ → ℤ) (idx : ℤ)
    (st : ArmState F) : F × ArmState F × ℕ :=
  let r := getServoPosition reads idx st
  (r.1.current_angle idx, r.1, r.2)

/-- WidowX::setId (WidowX.cpp lines 91-96): guarded channel id update. -/
def setId {F : Type*} (idx : ℤ) (newID : ℤ) (st : ArmState F) : ArmState F :=
  if idx < 0 ∨ 6 ≤ idx then st
  else { st with id := Function.update st.id idx newID }

/-- WidowX::getId (WidowX.cpp lines 101-104): unguarded array read. -/
def getId {F : Type*} (idx : ℤ) (st : ArmState F) : ℤ :=
  st.id idx

theorem gpRetry_finds (reads : ℕ → ℤ) (prev : ℤ) (M : ℕ) (hM : M < 10)
    (hvM : reads M ≠ -1) :
    ∀ i, i ≤ M → (∀ k, i ≤ k → k < M → reads k = -1) →
      gpRetry reads prev i = (reads M, M + 1) := by
  have key : ∀ d i, M - i ≤ d → i ≤ M → (∀ k, i ≤ k → k < M → reads k = -1) →
      gpRetry reads prev i = (reads M, M + 1) := by
    intro d
    induction d with
    | zero =>
        intro i hd hi _
        have hiM : i = M := by omega
        subst hiM
        rw [gpRetry, dif_pos hM, if_neg hvM]
    | succ d ih =>
        intro i hd hi hk
        by_cases him : i = M
        · subst him
          rw [gpRetry, dif_pos hM, if_neg hvM]
        · have hiM : i < M := by omega
          rw [gpRetry, dif_pos (by omega : i < 10), if_pos (hk i le_rfl hiM)]
          exact ih (i + 1) (by omega) (by omega) (fun k h1 h2 => hk k (by omega) h2)
  exact fun i hi hk => key (M - i) i le_rfl hi hk

theorem gpRetry_exhaust (reads : ℕ → ℤ) (prev : ℤ) :
    ∀ i, (∀ k, i ≤ k → k < 10 → reads k = -1) → gpRetry reads prev i = (prev, 10) := by
  have key : ∀ d i, 10 - i ≤ d → (∀ k, i ≤ k → k < 10 → reads k = -1) →
      gpRetry reads prev i = (prev, 10) := by
    intro d
    induction d with
    | zero =>
        intro i hd _
        rw [gpRetry, dif_neg (by omega : ¬i < 10)]
    | succ d ih =>
        intro i hd hk
        by_cases hi : i < 10
        · rw [gpRetry, dif_pos hi, if_pos (hk i le_rfl hi)]
          exact ih (i + 1) (by omega) (fun k h1 h2 => hk k (by omega) h2)
        · rw [gpRetry, dif_neg hi]
  exact fun i hk => key (10 - i) i le_rfl hk

theorem gpRetry_ne_sentinel (reads : ℕ → ℤ) (prev : ℤ) (hprev : prev ≠ -1) :
    ∀ i, (gpRetry reads prev i).1 ≠ -1 := by
  have key : ∀ d i, 10 - i ≤ d → (gpRetry reads prev i).1 ≠ -1 := by
    intro d
    induction d with
    | zero =>
        intro i hd
        rw [gpRetry, dif_neg (by omega : ¬i < 10)]
        exact hprev
    | succ d ih =>
        intro i hd
        by_cases hi : i < 10
        · rw [gpRetry, dif_pos hi]
          by_cases hr : reads i = -1
          · rw [if_pos hr]
            exact ih (i + 1) (by omega)
          · rw [if_neg hr]
            exact hr
        · rw [gpRetry, dif_neg hi]
          exact hprev
  exact fun i => key (10 - i) i le_rfl

/-- C8: if the bus read returns the failure sentinel -1 for N consecutive
reads (N < 10) and then a valid value v, getServoPosition stores and returns
v; if all 10 consecutive reads return the sentinel, it stores and returns the
previously cached position; and the stored position is never the sentinel. -/
theorem getServoPosition_retry_fallback :
    (∀ (reads : ℕ → ℤ) (idx : ℤ) (st : ArmState ℚ) (N : ℕ) (v : ℤ),
      N < 10 → v ≠ -1 → (∀ k, k < N → reads k = -1) → reads N = v →
      (getServoPosition reads idx st).1.current_position idx = v) ∧
    (∀ (reads : ℕ → ℤ) (idx : ℤ) (st : ArmState ℚ),
      (∀ k, k < 10 → reads k = -1) →
      0 ≤ st.current_position idx → st.current_position idx < 65536 →
      (getServoPosition reads idx st).1.current_position idx = st.current_position idx) ∧
    (∀ (reads : ℕ → ℤ) (idx : ℤ) (st : ArmState ℚ),
      (getServoPosition reads idx st).1.current_position idx ≠ -1) := by
  refine ⟨?_, ?_, ?_⟩
  · intro reads idx st N v hN hv hsent hval
    simp only [getServoPosition]
    rcases Nat.eq_zero_or_pos N with h0 | hpos
    · subst h0
      rw [if_neg (hval ▸ hv)]
      simp [Function.update_same]
      exact hval
    · rw [if_pos (hsent 0 hpos)]
      rw [gpRetry_finds reads _ N hN (hval ▸ hv) 1 hpos
        (fun k h1 h2 => hsent k h2)]
      simp [Function.update_same]
      exact hval
  · intro reads idx st hsent h0 h1
    simp only [getServoPosition]
    rw [if_pos (hsent 0 (by norm_num))]
    rw [gpRetry_exhaust reads _ 1 (fun k _ h2 => hsent k h2)]
    simp [Function.update_same]
    exact Int.emod_eq_of_lt h0 h1
  · intro reads idx st
    simp only [getServoPosition]
    by_cases hr : reads 0 = -1
    · rw [if_pos hr]
      simp only [Function.update_same]
      exact gpRetry_ne_sentinel reads _
        (by
          have := Int.emod_nonneg (st.current_position idx) (by norm_num : (65536 : ℤ) ≠ 0)
          omega) 1
    · rw [if_neg hr]
      simp only [Function.update_same]
      exact hr

/-- Witness for C8: three sentinel reads then 777 yields 777; ten sentinel
reads yield the cached 42; the sentinel is never stored. -/
theorem getServoPosition_retry_fallback_witness :
    ((getServoPosition (fun k => if k < 3 then -1 else 777) 0
        { demoState with current_position := fun _ => 42 }).1.current_position 0 = 777) ∧
    ((getServoPosition (fun _ => -1) 0
        { demoState with current_position := fun _ => 42 }).1.current_position 0 = 42) ∧
    ((getServoPosition (fun _ => -1) 0
        { demoState with current_position := fun _ => 42 }).1.current_position 0 ≠ -1) :=
  ⟨getServoPosition_retry_fallback.1 _ 0 _ 3 777 (by norm_num) (by norm_num)
      (fun k hk => by simp [hk]) (by norm_num),
    getServoPosition_retry_fallback.2.1 _ 0 _ (fun k _ => rfl) (by norm_num) (by norm_num),
    getServoPosition_retry_fallback.2.2 _ 0 _⟩

/-- The cached angle of channel i agrees with the conversion of its cached
raw position. -/
def Synced {F : Type*} [LinearOrderedField F] (st : ArmState F) (i : ℤ) : Prop :=
  st.current_angle i = positionToAngle i (st.current_position i)

theorem getServoPosition_synced {F : Type*} [LinearOrderedField F] (reads : ℕ → ℤ)
    (idx : ℤ) (st : ArmState F) : Synced (getServoPosition reads idx st).1 idx := by
  unfold getServoPosition Synced
  simp [Function.update_same]

theorem getServoPosition_preserves {F : Type*} [LinearOrderedField F] (reads : ℕ → ℤ)
    (idx j : ℤ) (st : ArmState F) (hj : j ≠ idx) :
    (getServoPosition reads idx st).1.current_angle j = st.current_angle j ∧
    (getServoPosition reads idx st).1.current_position j = st.current_position j := by
  unfold getServoPosition
  simp [Function.update_noteq hj]

theorem gcp_fold_inv (reads : ℕ → ℤ) (l : List ℕ) (p : ArmState ℚ × ℕ) (i : ℤ) :
    ((∃ j ∈ l, (j : ℤ) = i) →
      Synced (l.foldl (fun (p : ArmState ℚ × ℕ) (n : ℕ) =>
        let r := getServoPosition (fun k => reads (p.2 + k)) (n : ℤ) p.1
        (r.1, p.2 + r.2)) p).1 i) ∧
    ((∀ j ∈ l, (j : ℤ) ≠ i) →
      (l.foldl (fun (p : ArmState ℚ × ℕ) (n : ℕ) =>
        let r := getServoPosition (fun k => reads (p.2 + k)) (n : ℤ) p.1
        (r.1, p.2 + r.2)) p).1.current_angle i = p.1.current_angle i ∧
      (l.foldl (fun (p : ArmState ℚ × ℕ) (n : ℕ) =>
        let r := getServoPosition (fun k => reads (p.2 + k)) (n : ℤ) p.1
        (r.1, p.2 + r.2)) p).1.current_position i = p.1.current_position i) := by
  induction l generalizing p with
  | nil => exact ⟨fun h => by simp at h, fun _ => ⟨rfl, rfl⟩⟩
  | cons n l ih =>
      constructor
      · rintro ⟨j, hj, rfl⟩
        rw [List.foldl_cons]
        rcases List.mem_cons.1 hj with rfl | hjl
        · by_cases hmem : ∃ m ∈ l, (m : ℤ) = (j : ℤ)
          · exact (ih _).1 hmem
          · push_neg at hmem
            have hpres := (ih (let r := getServoPosition (fun k => reads (p.2 + k)) (j : ℤ) p.1
              (r.1, p.2 + r.2))).2 hmem
            unfold Synced
            rw [hpres.1, hpres.2]
            exact getServoPosition_synced (F := ℚ) (fun k => reads (p.2 + k)) (j : ℤ) p.1
        · exact (ih _).1 ⟨j, hjl, rfl⟩
      · intro hall
        rw [List.foldl_cons]
        have hni : (n : ℤ) ≠ i := hall n (List.mem_cons_self n l)
        have hrest : ∀ j ∈ l, (j : ℤ) ≠ i := fun j hj => hall j (List.mem_cons_of_mem n hj)
        have hpres := (ih (let r := getServoPosition (fun k => reads (p.2 + k)) (n : ℤ) p.1
          (r.1, p.2 + r.2))).2 hrest
        have hstep := getServoPosition_preserves (fun k => reads (p.2 + k)) (n : ℤ) i p.1
          (fun h => hni h.symm)
        exact ⟨hpres.1.trans hstep.1, hpres.2.trans hstep.2⟩

/-- C10: after getServoPosition(idx) the cached angle equals the conversion of
the cached position at idx and every other channel's caches are untouched;
after getCurrentPosition this consistency holds for all six channels; after
getServoAngle it holds for the read channel. -/
theorem caches_consistent :
    (∀ (reads : ℕ → ℤ) (idx : ℤ) (st : ArmState ℚ), 0 ≤ idx → idx < 6 →
      Synced (getServoPosition reads idx st).1 idx) ∧
    (∀ (reads : ℕ → ℤ) (idx j : ℤ) (st : ArmState ℚ), j ≠ idx →
      (getServoPosition reads idx st).1.current_angle j = st.current_angle j ∧
      (getServoPosition reads idx st).1.current_position j = st.current_position j) ∧
    (∀ (reads : ℕ → ℤ) (st : ArmState ℚ) (i : ℤ), 0 ≤ i → i < 6 →
      Synced (getCurrentPosition reads st).1 i) ∧
    (∀ (reads : ℕ → ℤ) (idx : ℤ) (st : ArmState ℚ), 0 ≤ idx → idx < 6 →
      Synced (getServoAngle reads idx st).2.1 idx) := by
  refine ⟨fun reads idx st _ _ => getServoPosition_synced reads idx st,
    fun reads idx j st hj => getServoPosition_preserves reads idx j st hj,
    ?_, fun reads idx st _ _ => getServoPosition_synced reads idx st⟩
  intro reads st i h0 h6
  unfold getCurrentPosition
  refine (gcp_fold_inv reads (List.range 6) (st, 0) i).1 ⟨i.toNat, ?_, by omega⟩
  rw [List.mem_range]
  omega

/-- Witness for C10 at channel 2 with an all-valid bus. -/
theorem caches_consistent_witness :
    Synced (getServoPosition (fun _ => 2047) 2 demoState).1 2 ∧
    ((getServoPosition (fun _ => 2047) 2 demoState).1.current_angle 5 =
        demoState.current_angle 5 ∧
      (getServoPosition (fun _ => 2047) 2 demoState).1.current_position 5 =
        demoState.current_position 5) ∧
    Synced (getCurrentPosition (fun _ => 2047) demoState).1 2 ∧
    Synced (getServoAngle (fun _ => 2047) 2 demoState).2.1 2 :=
  ⟨caches_consistent.1 _ 2 demoState (by norm_num) (by norm_num),
    caches_consistent.2.1 _ 2 5 demoState (by norm_num),
    caches_consistent.2.2.1 _ demoState 2 (by norm_num) (by norm_num),
    caches_consistent.2.2.2 _ 2 demoState (by norm_num) (by norm_num)⟩

/-- All-zero controller state. -/
def stZero : ArmState ℚ :=
  ⟨fun _ => 0, fun _ => 0, fun _ => 0, fun _ => 0, fun _ => 0, false⟩

/-- Same as stZero on the id array proper (slots 0..5) but with different
memory just past the array, at slot 6. -/
def stPastEnd : ArmState ℚ :=
  { stZero with id := fun i => if i = 6 then 7 else 0 }

/-- Counterexample for C9: getId performs no index validation; its result for
idx = 6 depends on memory outside the six-element id array (the two states
agree on all array slots 0..5 yet getId 6 differs), refuting the claim that
both handlers validate the index and that getId never reads outside the
array. -/
theorem getId_reads_past_array :
    stZero.id 0 = stPastEnd.id 0 ∧ stZero.id 1 = stPastEnd.id 1 ∧
    stZero.id 2 = stPastEnd.id 2 ∧ stZero.id 3 = stPastEnd.id 3 ∧
    stZero.id 4 = stPastEnd.id 4 ∧ stZero.id 5 = stPastEnd.id 5 ∧
    getId 6 stZero ≠ getId 6 stPastEnd := by
  refine ⟨rfl, rfl, rfl, rfl, rfl, rfl, ?_⟩
  unfold getId stPastEnd stZero
  norm_num

/-- C9 as amended: setId validates the index, so an out-of-range setId leaves
the state unchanged, and an in-range setId updates the addressed slot; getId
performs no validation and returns id[idx] unchecked, for any idx. -/
theorem setId_guarded_getId_unchecked :
    (∀ (idx newID : ℤ) (st : ArmState ℚ), idx < 0 ∨ 6 ≤ idx →
      setId idx newID st = st) ∧
    (∀ (idx newID : ℤ) (st : ArmState ℚ), 0 ≤ idx → idx < 6 →
      (setId idx newID st).id idx = newID) ∧
    (∀ (idx : ℤ) (st : ArmState ℚ), getId idx st = st.id idx) := by
  refine ⟨?_, ?_, fun idx st => rfl⟩
  · intro idx newID st h
    unfold setId
    rw [if_pos h]
  · intro idx newID st h0 h6
    unfold setId
    rw [if_neg (by omega)]
    simp [Function.update_same]

/-- Witness for the amended C9: setId(7,·) is a no-op, setId(2,16) stores 16
(the example from the library header comment), getId reads the slot. -/
theorem setId_guarded_getId_unchecked_witness :
    setId 7 9 stZero = stZero ∧ (setId 2 16 stZero).id 2 = 16 ∧
    getId 3 stZero = stZero.id 3 :=
  ⟨setId_guarded_getId_unchecked.1 7 9 stZero (by norm_num),
    setId_guarded_getId_unchecked.2.1 2 16 stZero (by norm_num) (by norm_num),
    setId_guarded_getId_unchecked.2.2 3 stZero⟩

section RealKinematics

open Real

/-- C math.h atan2(y, x): the angle of the point (x, y) in (-π, π], with
atan2(0, 0) = 0. -/
noncomputable def atan2 (y x : ℝ) : ℝ :=
  if 0 < x then arctan (y / x)
  else if x < 0 ∧ 0 ≤ y then arctan (y / x) + π
  else if x < 0 ∧ y < 0 then arctan (y / x) - π
  else if x = 0 ∧ 0 < y then π / 2
  else if x = 0 ∧ y < 0 then -(π / 2)
  else 0

/-- The normalisation idiom q = atan2(sin q, cos q) used throughout the IK
code to bring an angle into (-π, π]. -/
noncomputable def normAng (t : ℝ) : ℝ := atan2 (Real.sin t) (Real.cos t)

theorem atan2_pos_x (y x : ℝ) (hx : 0 < x) : atan2 y x = arctan (y / x) := by
  unfold atan2
  rw [if_pos hx]

theorem atan2_neg_x_nonneg_y (y x : ℝ) (hx : x < 0) (hy : 0 ≤ y) :
    atan2 y x = arctan (y / x) + π := by
  unfold atan2
  rw [if_neg (by linarith), if_pos ⟨hx, hy⟩]

theorem atan2_neg_x_neg_y (y x : ℝ) (hx : x < 0) (hy : y < 0) :
    atan2 y x = arctan (y / x) - π := by
  unfold atan2
  rw [if_neg (by linarith), if_neg (by rintro ⟨-, h⟩; linarith), if_pos ⟨hx, hy⟩]

theorem normAng_eq_self {t : ℝ} (h1 : -π < t) (h2 : t ≤ π) : normAng t = t := by
  unfold normAng
  have hpi := pi_pos
  rcases lt_trichotomy (Real.cos t) 0 with hc | hc | hc
  · have ht2 : π / 2 < t ∨ t < -(π / 2) := by
      by_contra hcon
      push_neg at hcon
      have := Real.cos_nonneg_of_mem_Icc (x := t) ⟨hcon.2, hcon.1⟩
      linarith
    rcases ht2 with ht2 | ht2
    · have hs : 0 ≤ Real.sin t := by
        apply Real.sin_nonneg_of_nonneg_of_le_pi <;> linarith
      rw [atan2_neg_x_nonneg_y _ _ hc hs]
      have htan : Real.sin t / Real.cos t = Real.tan (t - π) := by
        rw [Real.tan_eq_sin_div_cos, Real.sin_sub_pi, Real.cos_sub_pi]
        rw [div_neg, neg_div, neg_neg]
      rw [htan, arctan_tan (by linarith) (by linarith)]
      ring
    · have hs : Real.sin t < 0 := by
        have : 0 < Real.sin (-t) := by
          apply Real.sin_pos_of_pos_of_lt_pi <;> linarith
        rw [Real.sin_neg] at this
        linarith
      rw [atan2_neg_x_neg_y _ _ hc hs]
      have htan : Real.sin t / Real.cos t = Real.tan (t + π) := by
        rw [Real.tan_eq_sin_div_cos, Real.sin_add_pi, Real.cos_add_pi]
        rw [div_neg, neg_div, neg_neg]
      rw [htan, arctan_tan (by linarith) (by linarith)]
      ring
  · have ht : t = π / 2 ∨ t = -(π / 2) := by
      obtain ⟨k, hk⟩ := Real.cos_eq_zero_iff.1 hc
      have hkk : k = 0 ∨ k = -1 := by
        rcases lt_trichotomy k 0 with hk0 | hk0 | hk0
        · right
          by_contra hne
          have hk2 : (2 * (k : ℝ) + 1) ≤ -3 := by
            have hk3 : (k : ℝ) ≤ -2 := by exact_mod_cast (by omega : k ≤ -2)
            linarith
          have hle : t ≤ -3 * π / 2 := by
            rw [hk]
            nlinarith
          linarith
        · left
          exact hk0
        · exfalso
          have hk2 : (3 : ℝ) ≤ 2 * (k : ℝ) + 1 := by
            have hk3 : (1 : ℝ) ≤ (k : ℝ) := by exact_mod_cast hk0
            linarith
          have hge : 3 * π / 2 ≤ t := by
            rw [hk]
            nlinarith
          linarith
      rcases hkk with rfl | rfl
      · left
        rw [hk]
        push_cast
        ring
      · right
        rw [hk]
        push_cast
        ring
    rcases ht with rfl | rfl
    · unfold atan2
      rw [Real.sin_pi_div_two, if_neg (by simp [hc]), if_neg (by simp [hc]),
        if_neg (by rintro ⟨-, h⟩; linarith), if_pos ⟨hc, by norm_num⟩]
    · unfold atan2
      rw [Real.sin_neg, Real.sin_pi_div_two, if_neg (by simp [hc]),
        if_neg (by rintro ⟨h, -⟩; linarith), if_neg (by rintro ⟨h, -⟩; linarith),
        if_neg (by rintro ⟨-, h⟩; linarith), if_pos ⟨hc, by norm_num⟩]
  · rw [atan2_pos_x _ _ hc, ← Real.tan_eq_sin_div_cos]
    have ht2 : -(π / 2) < t ∧ t < π / 2 := by
      constructor
      · by_contra hcon
        push_neg at hcon
        have : Real.cos t ≤ 0 := by
          rw [← Real.cos_neg]
          apply Real.cos_nonpos_of_pi_div_two_le_of_le <;> linarith
        linarith
      · by_contra hcon
        push_neg at hcon
        have : Real.cos t ≤ 0 := by
          apply Real.cos_nonpos_of_pi_div_two_le_of_le <;> linarith
        linarith
    exact arctan_tan ht2.1 ht2.2

theorem cos_two_arctan (t : ℝ) : Real.cos (2 * arctan t) = (1 - t ^ 2) / (1 + t ^ 2) := by
  have h1 : (0 : ℝ) < 1 + t ^ 2 := by positivity
  have hsq : Real.sqrt (1 + t ^ 2) ^ 2 = 1 + t ^ 2 := Real.sq_sqrt h1.le
  rw [Real.cos_two_mul, Real.cos_arctan]
  rw [div_pow, one_pow, hsq]
  field_simp
  ring

theorem sin_two_arctan (t : ℝ) : Real.sin (2 * arctan t) = 2 * t / (1 + t ^ 2) := by
  have h1 : (0 : ℝ) < 1 + t ^ 2 := by positivity
  have hsq : Real.sqrt (1 + t ^ 2) ^ 2 = 1 + t ^ 2 := Real.sq_sqrt h1.le
  rw [Real.sin_two_mul, Real.sin_arctan, Real.cos_arctan]
  rw [show 2 * (t / Real.sqrt (1 + t ^ 2)) * (1 / Real.sqrt (1 + t ^ 2)) =
      2 * t / Real.sqrt (1 + t ^ 2) ^ 2 from by ring, hsq]

end RealKinematics

noncomputable section IK

open Real

/-- Arm geometry, WidowX constructor (WidowX.cpp lines 60-63). -/
def L0 : ℝ := 9

def L1 : ℝ := 14

def L2 : ℝ := 5

def L3 : ℝ := 14

def L4 : ℝ := 14

def D : ℝ := Real.sqrt (L1 ^ 2 + L2 ^ 2)

def alpha : ℝ := atan2 L1 L2

def sa : ℝ := Real.sin alpha

def ca : ℝ := Real.cos alpha

/-- Joint limits (WidowX.cpp lines 41-45). -/
def limPi_2 : ℝ := 181 * π / 360

def lim5Pi_6 : ℝ := 5 * π / 6

def q2Lim : Fin 2 → ℝ := ![-limPi_2, limPi_2]

def q3Lim : Fin 2 → ℝ := ![-limPi_2, lim5Pi_6]

def q4Lim : Fin 2 → ℝ := ![-11 * π / 18, limPi_2]

/-- One shoulder-stage iteration of getIK_Q4's loop (WidowX.cpp lines
910-914): the globals a and b are overwritten with the shoulder formulas and
q2 is derived; returns (a, b, q2). -/
def q4Shoulder (X Z c4 s4 q3 : ℝ) : ℝ × ℝ × ℝ :=
  let c3 := Real.cos q3
  let s3 := Real.sin q3
  let a := D * ca + L3 * c3 + L4 * c3 * c4 - L4 * s3 * s4
  let b := D * sa + L3 * s3 + L4 * s3 * c4 + L4 * c3 * s4
  (a, b, atan2 (a * Z - b * X) (a * X + b * Z))

/-- The success write-back of getIK_Q4 and getIK_Gamma (WidowX.cpp lines
941-947 and 1047-1053). The source reads current_angle[5] into
desired_angle[4] and current_angle[6] (one slot past the six-element array)
into desired_angle[5]. -/
def writeIK4 (st : ArmState ℝ) (q1 q2 q3 q4 : ℝ) : ArmState ℝ :=
  { st with desired_angle :=
      Function.update (Function.update (Function.update (Function.update
        (Function.update (Function.update st.desired_angle 0 q1) 1 q2) 2 q3) 3 q4)
        4 (st.current_angle 5)) 5 (st.current_angle 6) }

/-- WidowX::getIK_Q4 (WidowX.cpp lines 870-950), with the at-most-two-pass
retry loop unrolled. In the retry inside the loop (source line 921) the
globals a and b have already been overwritten by the shoulder-stage
assignments of lines 912-913, so the fallback candidate is computed from the
shoulder coefficients, while c and cond still hold their elbow-stage values. -/
def getIK_Q4 (Px Py Pz : ℝ) (st : ArmState ℝ) : Bool × ArmState ℝ :=
  let q1 := atan2 Py Px
  let X := Real.sqrt (Px ^ 2 + Py ^ 2)
  let Z := Pz - L0
  let q4 := st.current_angle 3
  let s4 := Real.sin q4
  let c4 := Real.cos q4
  let a := L3 * ca + L4 * ca * c4 + L4 * sa * s4
  let b := L3 * sa - L4 * ca * s4 + L4 * sa * c4
  let c := (X ^ 2 + Z ^ 2 - D ^ 2 - L3 ^ 2 - L4 ^ 2 - 2 * L3 * L4 * c4) / (2 * D)
  let cond := a ^ 2 + b ^ 2 - c ^ 2
  if cond < 0 then (true, st)
  else
    let q3 := normAng (2 * atan2 (b - Real.sqrt cond) (a + c))
    if q3 < q3Lim 0 ∨ q3 > q3Lim 1 then
      let q3 := normAng (2 * atan2 (b + Real.sqrt cond) (a + c))
      if q3 < q3Lim 0 ∨ q3 > q3Lim 1 then (true, st)
      else
        let s := q4Shoulder X Z c4 s4 q3
        if s.2.2 < q2Lim 0 ∨ s.2.2 > q2Lim 1 then (true, st)
        else (false, writeIK4 st q1 s.2.2 q3 q4)
    else
      let s := q4Shoulder X Z c4 s4 q3
      if s.2.2 < q2Lim 0 ∨ s.2.2 > q2Lim 1 then
        let q3r := normAng (2 * atan2 (s.2.1 + Real.sqrt cond) (s.1 + c))
        if q3r < q3Lim 0 ∨ q3r > q3Lim 1 then (true, st)
        else
          let s2 := q4Shoulder X Z c4 s4 q3r
          if s2.2.2 < q2Lim 0 ∨ s2.2.2 > q2Lim 1 then (true, st)
          else (false, writeIK4 st q1 s2.2.2 q3r q4)
      else (false, writeIK4 st q1 s.2.2 q3 q4)

/-- The variant of getIK_Q4 that follows the spec's words for the in-loop
retry (C6): the fallback elbow candidate is the other root
2*atan2(b + sqrt(cond), a + c) computed from the same coefficients a, b, c
that produced the first candidate. Identical to getIK_Q4 otherwise. -/
def getIK_Q4_claim (Px Py Pz : ℝ) (st : ArmState ℝ) : Bool × ArmState ℝ :=
  let q1 := atan2 Py Px
  let X := Real.sqrt (Px ^ 2 + Py ^ 2)
  let Z := Pz - L0
  let q4 := st.current_angle 3
  let s4 := Real.sin q4
  let c4 := Real.cos q4
  let a := L3 * ca + L4 * ca * c4 + L4 * sa * s4
  let b := L3 * sa - L4 * ca * s4 + L4 * sa * c4
  let c := (X ^ 2 + Z ^ 2 - D ^ 2 - L3 ^ 2 - L4 ^ 2 - 2 * L3 * L4 * c4) / (2 * D)
  let cond := a ^ 2 + b ^ 2 - c ^ 2
  if cond < 0 then (true, st)
  else
    let q3 := normAng (2 * atan2 (b - Real.sqrt cond) (a + c))
    if q3 < q3Lim 0 ∨ q3 > q3Lim 1 then
      let q3 := normAng (2 * atan2 (b + Real.sqrt cond) (a + c))
      if q3 < q3Lim 0 ∨ q3 > q3Lim 1 then (true, st)
      else
        let s := q4Shoulder X Z c4 s4 q3
        if s.2.2 < q2Lim 0 ∨ s.2.2 > q2Lim 1 then (true, st)
        else (false, writeIK4 st q1 s.2.2 q3 q4)
    else
      let s := q4Shoulder X Z c4 s4 q3
      if s.2.2 < q2Lim 0 ∨ s.2.2 > q2Lim 1 then
        let q3r := normAng (2 * atan2 (b + Real.sqrt cond) (a + c))
        if q3r < q3Lim 0 ∨ q3r > q3Lim 1 then (true, st)
        else
          let s2 := q4Shoulder X Z c4 s4 q3r
          if s2.2.2 < q2Lim 0 ∨ s2.2.2 > q2Lim 1 then (true, st)
          else (false, writeIK4 st q1 s2.2.2 q3r q4)
      else (false, writeIK4 st q1 s.2.2 q3 q4)

/-- Shoulder angle of getIK_Gamma's loop (WidowX.cpp lines 992-996). -/
def gamShoulder (X Z q3 : ℝ) : ℝ :=
  let c3 := Real.cos q3
  let s3 := Real.sin q3
  let a := D * ca + L3 * c3
  let b := D * sa + L3 * s3
  atan2 (a * Z - b * X) (a * X + b * Z)

/-- One validation pass of getIK_Gamma's loop for a given elbow candidate
(WidowX.cpp lines 990-1045): shoulder-limit check then wrist-limit check;
none means the pass failed (in the source both failures fall back to the
other elbow candidate in exactly the same way). -/
def gamIter (X Z gamma q3 : ℝ) : Option (ℝ × ℝ) :=
  let q2 := gamShoulder X Z q3
  if q2 < q2Lim 0 ∨ q2 > q2Lim 1 then none
  else
    let q4 := -gamma - q2 - q3
    if q4 < q4Lim 0 ∨ q4 > q4Lim 1 then none
    else some (q2, q4)

/-- WidowX::getIK_Gamma (WidowX.cpp lines 956-1056), retry loop unrolled. -/
def getIK_Gamma (Px Py Pz gamma : ℝ) (st : ArmState ℝ) : Bool × ArmState ℝ :=
  let sg := Real.sin gamma
  let cg := Real.cos gamma
  let X := Real.sqrt (Px ^ 2 + Py ^ 2) - L4 * cg
  let Z := Pz - L0 + L4 * sg
  let q1 := atan2 Py Px
  let c := (X ^ 2 + Z ^ 2 - D ^ 2 - L3 ^ 2) / (2 * D * L3)
  if |c| > 1 then (true, st)
  else
    let q3 := normAng (alpha + Real.arccos c)
    if q3 < q3Lim 0 ∨ q3 > q3Lim 1 then
      let q3 := normAng (alpha - Real.arccos c)
      if q3 < q3Lim 0 ∨ q3 > q3Lim 1 then (true, st)
      else
        match gamIter X Z gamma q3 with
        | none => (true, st)
        | some (q2, q4) => (false, writeIK4 st q1 q2 q3 q4)
    else
      match gamIter X Z gamma q3 with
      | some (q2, q4) => (false, writeIK4 st q1 q2 q3 q4)
      | none =>
          let q3r := normAng (alpha - Real.arccos c)
          if q3r < q3Lim 0 ∨ q3r > q3Lim 1 then (true, st)
          else
            match gamIter X Z gamma q3r with
            | none => (true, st)
            | some (q2, q4) => (false, writeIK4 st q1 q2 q3r q4)

/-- Rotation about z (WidowX.cpp lines 690-695). -/
def rotz (angle : ℝ) : Matrix (Fin 3) (Fin 3) ℝ :=
  !![Real.cos angle, -Real.sin angle, 0;
     Real.sin angle, Real.cos angle, 0;
     0, 0, 1]

/-- Rotation about y (WidowX.cpp lines 697-702). -/
def roty (angle : ℝ) : Matrix (Fin 3) (Fin 3) ℝ :=
  !![Real.cos angle, 0, Real.sin angle;
     0, 1, 0;
     -Real.sin angle, 0, Real.cos angle]

/-- WidowX::getIK_Rd (WidowX.cpp lines 1058-1078). BLA's in-place Invert is
the matrix inverse. -/
def getIK_Rd (Px Py Pz : ℝ) (Rd : Matrix (Fin 3) (Fin 3) ℝ) (st : ArmState ℝ) :
    Bool × ArmState ℝ :=
  let gamma := atan2 (-Rd 2 0) (Rd 0 0)
  match getIK_Gamma Px Py Pz gamma st with
  | (true, st1) => (true, st1)
  | (false, st1) =>
      let RyGamma := (roty gamma)⁻¹
      let Rx5 := RyGamma * Rd
      let q5 := atan2 (Rx5 2 1) (Rx5 1 1)
      (false, { st1 with desired_angle := Function.update st1.desired_angle 4 q5 })

/-- WidowX::getIK_RdBase (WidowX.cpp lines 1080-1090). -/
def getIK_RdBase (Px Py Pz : ℝ) (RdBase : Matrix (Fin 3) (Fin 3) ℝ) (st : ArmState ℝ) :
    Bool × ArmState ℝ :=
  let q1 := atan2 Py Px
  let RzQ1 := (rotz q1)⁻¹
  let Rd := RzQ1 * RdBase
  getIK_Rd Px Py Pz Rd st

/-- The success write-back of getIK_Gamma_Controller (WidowX.cpp lines
1206-1209): only desired_angle[0..3] are written. -/
def writeIK4C (st : ArmState ℝ) (q1 q2 q3 q4 : ℝ) : ArmState ℝ :=
  { st with desired_angle :=
      Function.update (Function.update (Function.update
        (Function.update st.desired_angle 0 q1) 1 q2) 2 q3) 3 q4 }

/-- WidowX::getIK_Gamma_Controller (WidowX.cpp lines 1096-1212), retry loop
unrolled. The elbow candidate closer to the last-read elbow angle
(getServoAngle(2), which consumes bus reads and refreshes channel 2) is tried
first; pick.1 is the tried candidate and pick.2 the fallback
alpha + (-1)^selection * acos(c). -/
def getIK_Gamma_Controller (reads : ℕ → ℤ) (Px Py Pz gamma : ℝ) (st : ArmState ℝ) :
    Bool × ArmState ℝ :=
  let sg := Real.sin gamma
  let cg := Real.cos gamma
  let X := Real.sqrt (Px ^ 2 + Py ^ 2) - L4 * cg
  let Z := Pz - L0 + L4 * sg
  let q1 := atan2 Py Px
  let c := (X ^ 2 + Z ^ 2 - D ^ 2 - L3 ^ 2) / (2 * D * L3)
  if |c| > 1 then (true, st)
  else
    let ga := getServoAngle reads 2 st
    let q3_prev := ga.1
    let st1 := ga.2.1
    let q3_1 := normAng (alpha + Real.arccos c)
    let q3_2 := normAng (alpha - Real.arccos c)
    let pick := if |q3_1 - q3_prev| > |q3_2 - q3_prev| then (q3_2, q3_1) else (q3_1, q3_2)
    let q3 := pick.1
    if q3 < q3Lim 0 ∨ q3 > q3Lim 1 then
      let q3 := pick.2
      if q3 < q3Lim 0 ∨ q3 > q3Lim 1 then (true, st1)
      else
        match gamIter X Z gamma q3 with
        | none => (true, st1)
        | some (q2, q4) => (false, writeIK4C st1 q1 q2 q3 q4)
    else
      match gamIter X Z gamma q3 with
      | some (q2, q4) => (false, writeIK4C st1 q1 q2 q3 q4)
      | none =>
          let q3r := pick.2
          if q3r < q3Lim 0 ∨ q3r > q3Lim 1 then (true, st1)
          else
            match gamIter X Z gamma q3r with
            | none => (true, st1)
            | some (q2, q4) => (false, writeIK4C st1 q1 q2 q3r q4)

/-- The five IK entry points. -/
inductive IKCall where
  | q4 (Px Py Pz : ℝ)
  | gam (Px Py Pz gamma : ℝ)
  | rd (Px Py Pz : ℝ) (Rd : Matrix (Fin 3) (Fin 3) ℝ)
  | rdBase (Px Py Pz : ℝ) (RdBase : Matrix (Fin 3) (Fin 3) ℝ)
  | gamCtrl (Px Py Pz gamma : ℝ)

/-- Dispatch one IK solve. Only the controller variant reads the bus. -/
def runIK (call : IKCall) (reads : ℕ → ℤ) (st : ArmState ℝ) : Bool × ArmState ℝ :=
  match call with
  | .q4 Px Py Pz => getIK_Q4 Px Py Pz st
  | .gam Px Py Pz g => getIK_Gamma Px Py Pz g st
  | .rd Px Py Pz Rd => getIK_Rd Px Py Pz Rd st
  | .rdBase Px Py Pz Rb => getIK_RdBase Px Py Pz Rb st
  | .gamCtrl Px Py Pz g => getIK_Gamma_Controller reads Px Py Pz g st

/-- The Cartesian target of each IK call. -/
def IKCall.target : IKCall → ℝ × ℝ × ℝ
  | .q4 Px Py Pz => (Px, Py, Pz)
  | .gam Px Py Pz _ => (Px, Py, Pz)
  | .rd Px Py Pz _ => (Px, Py, Pz)
  | .rdBase Px Py Pz _ => (Px, Py, Pz)
  | .gamCtrl Px Py Pz _ => (Px, Py, Pz)

/-- A position-write command on the bus: either one SetPosition, or one
batched sync-write frame. Torque commands and reads are not motion commands
and are not traced. -/
inductive Cmd where
  | setPos (busId : ℤ) (pos : ℤ)
  | syncFrame (frame : List ℤ)

/-- WidowX::torqueServos (WidowX.cpp lines 261-268): re-enables torque on all
channels (torque commands, no position writes) and clears isRelaxed. -/
def torqueServos {F : Type*} (st : ArmState F) : ArmState F :=
  { st with isRelaxed := false }

/-- WidowX::interpolate (WidowX.cpp lines 786-823). ticks is the list of
observed elapsed-time samples of the while loop (wall-clock dependent in the
source); each tick below remTime emits one SetPosition per channel 0..4 at
the sampled cubic, then the exact goals for channels 0..4 are written. -/
def interpolate (ticks : List ℤ) (remTime : ℤ) (st : ArmState ℝ) : ArmState ℝ × List Cmd :=
  let dp : ℤ → ℤ := fun i =>
    if 0 ≤ i ∧ i < 5 then angleToPosition i (st.desired_angle i) else st.desired_position i
  let W : ℤ → Fin 4 → ℝ := fun i =>
    cubeInterpolation ![(st.current_position i : ℝ), (dp i : ℝ), 0, 0] (remTime : ℝ)
  let tickCmds : List Cmd := (ticks.takeWhile (fun t => t < remTime)).flatMap (fun t =>
    (List.range 5).map (fun i : ℕ =>
      Cmd.setPos (st.id i)
        (cround (W i 0 + W i 1 * (t : ℝ) + W i 2 * (t : ℝ) ^ 2 + W i 3 * (t : ℝ) ^ 3))))
  let finalCmds : List Cmd := (List.range 5).map (fun i : ℕ => Cmd.setPos (st.id i) (dp i))
  ({ st with desired_position := dp }, tickCmds ++ finalCmds)

/-- The state each mover presents to its IK solve: moveArmQ4 / moveArmGamma /
moveArmRd / moveArmRdBase re-engage torque if relaxed and then refresh all
positions (WidowX.cpp lines 513-518 etc.); setArmGamma only re-engages torque
(lines 454-459, its getCurrentPosition call is commented out). -/
def preIK (call : IKCall) (reads : ℕ → ℤ) (st : ArmState ℝ) : ArmState ℝ :=
  match call with
  | .gamCtrl _ _ _ _ => if st.isRelaxed then torqueServos st else st
  | _ => (getCurrentPosition reads (if st.isRelaxed then torqueServos st else st)).1

/-- The motion a mover performs after a successful solve: the interpolating
movers run interpolate with DEFAULT_TIME = 2000; setArmGamma converts
desired_angle[0..3] to desired_position (lines 463-467) and emits one
syncWrite(4) frame. -/
def postIK (call : IKCall) (ticks : List ℤ) (st : ArmState ℝ) : ArmState ℝ × List Cmd :=
  match call with
  | .gamCtrl _ _ _ _ =>
      let dp : ℤ → ℤ := fun i =>
        if 0 ≤ i ∧ i < 4 then angleToPosition i (st.desired_angle i) else st.desired_position i
      let st3 := { st with desired_position := dp }
      (st3, [Cmd.syncFrame (syncWrite 4 st3)])
  | _ => interpolate ticks 2000 st

/-- The common shape of the move operations moveArmQ4, moveArmGamma,
moveArmRd, moveArmRdBase and setArmGamma: engage torque and refresh, solve,
and on failure return with no motion commands (the source prints a message
and returns). -/
def moveIK (call : IKCall) (reads : ℕ → ℤ) (ticks : List ℤ) (st : ArmState ℝ) :
    ArmState ℝ × List Cmd :=
  match runIK call reads (preIK call reads st) with
  | (true, st2) => (st2, [])
  | (false, st2) => postIK call ticks st2

/-- WidowX::moveArmQ4 (WidowX.cpp lines 513-527). -/
def moveArmQ4 (reads : ℕ → ℤ) (ticks : List ℤ) (Px Py Pz : ℝ) (st : ArmState ℝ) :
    ArmState ℝ × List Cmd :=
  moveIK (.q4 Px Py Pz) reads ticks st

/-- WidowX::moveArmGamma (WidowX.cpp lines 559-572). -/
def moveArmGamma (reads : ℕ → ℤ) (ticks : List ℤ) (Px Py Pz gamma : ℝ) (st : ArmState ℝ) :
    ArmState ℝ × List Cmd :=
  moveIK (.gam Px Py Pz gamma) reads ticks st

/-- WidowX::moveArmRd (WidowX.cpp lines 605-617). -/
def moveArmRd (reads : ℕ → ℤ) (ticks : List ℤ) (Px Py Pz : ℝ)
    (Rd : Matrix (Fin 3) (Fin 3) ℝ) (st : ArmState ℝ) : ArmState ℝ × List Cmd :=
  moveIK (.rd Px Py Pz Rd) reads ticks st

/-- WidowX::moveArmRdBase (WidowX.cpp lines 650-663). -/
def moveArmRdBase (reads : ℕ → ℤ) (ticks : List ℤ) (Px Py Pz : ℝ)
    (RdBase : Matrix (Fin 3) (Fin 3) ℝ) (st : ArmState ℝ) : ArmState ℝ × List Cmd :=
  moveIK (.rdBase Px Py Pz RdBase) reads ticks st

/-- WidowX::setArmGamma (WidowX.cpp lines 454-469). -/
def setArmGamma (reads : ℕ → ℤ) (Px Py Pz gamma : ℝ) (st : ArmState ℝ) :
    ArmState ℝ × List Cmd :=
  moveIK (.gamCtrl Px Py Pz gamma) reads [] st

theorem getIK_Q4_fail (Px Py Pz : ℝ) (st : ArmState ℝ)
    (h : (getIK_Q4 Px Py Pz st).1 = true) : (getIK_Q4 Px Py Pz st).2 = st := by
  simp only [getIK_Q4] at h ⊢
  split_ifs at h ⊢ <;> simp_all

theorem getIK_Q4_claim_fail (Px Py Pz : ℝ) (st : ArmState ℝ)
    (h : (getIK_Q4_claim Px Py Pz st).1 = true) : (getIK_Q4_claim Px Py Pz st).2 = st := by
  simp only [getIK_Q4_claim] at h ⊢
  split_ifs at h ⊢ <;> simp_all

theorem getIK_Gamma_fail (Px Py Pz g : ℝ) (st : ArmState ℝ)
    (h : (getIK_Gamma Px Py Pz g st).1 = true) : (getIK_Gamma Px Py Pz g st).2 = st := by
  simp only [getIK_Gamma] at h ⊢
  split_ifs at h ⊢ <;> try simp_all
  all_goals
    repeat' split at h
  all_goals simp_all

theorem getServoPosition_desired {F : Type*} [LinearOrderedField F] (reads : ℕ → ℤ)
    (idx : ℤ) (st : ArmState F) :
    (getServoPosition reads idx st).1.desired_angle = st.desired_angle ∧
    (getServoPosition reads idx st).1.desired_position = st.desired_position := by
  simp [getServoPosition]

theorem getIK_Gamma_Controller_fail (reads : ℕ → ℤ) (Px Py Pz g : ℝ) (st : ArmState ℝ)
    (h : (getIK_Gamma_Controller reads Px Py Pz g st).1 = true) :
    (getIK_Gamma_Controller reads Px Py Pz g st).2.desired_angle = st.desired_angle ∧
    (getIK_Gamma_Controller reads Px Py Pz g st).2.desired_position = st.desired_position := by
  have hga := getServoPosition_desired reads 2 st
  simp only [getIK_Gamma_Controller, getServoAngle] at h ⊢
  split_ifs at h ⊢ <;> try simp_all
  all_goals
    repeat' split at h
  all_goals simp_all

theorem getIK_Rd_fail (Px Py Pz : ℝ) (Rd : Matrix (Fin 3) (Fin 3) ℝ) (st : ArmState ℝ)
    (h : (getIK_Rd Px Py Pz Rd st).1 = true) : (getIK_Rd Px Py Pz Rd st).2 = st := by
  rcases hg : getIK_Gamma Px Py Pz (atan2 (-Rd 2 0) (Rd 0 0)) st with ⟨b, st1⟩
  cases b
  · simp [getIK_Rd, hg] at h
  · have hst1 : st1 = st := by
      have := getIK_Gamma_fail Px Py Pz (atan2 (-Rd 2 0) (Rd 0 0)) st (by rw [hg])
      rwa [hg] at this
    simp only [getIK_Rd, hg, hst1]

theorem getIK_RdBase_fail (Px Py Pz : ℝ) (Rb : Matrix (Fin 3) (Fin 3) ℝ) (st : ArmState ℝ)
    (h : (getIK_RdBase Px Py Pz Rb st).1 = true) : (getIK_RdBase Px Py Pz Rb st).2 = st := by
  simp only [getIK_RdBase] at h ⊢
  exact getIK_Rd_fail Px Py Pz _ st h

/-- C4: whenever an IK solve fails (returns 1), the desired_angle and
desired_position arrays are exactly as before the call, and the calling move
operation issues no motion command. -/
theorem ik_failure_leaves_desired_unchanged :
    (∀ (call : IKCall) (reads : ℕ → ℤ) (st : ArmState ℝ),
      (runIK call reads st).1 = true →
      (runIK call reads st).2.desired_angle = st.desired_angle ∧
      (runIK call reads st).2.desired_position = st.desired_position) ∧
    (∀ (call : IKCall) (reads : ℕ → ℤ) (ticks : List ℤ) (st : ArmState ℝ),
      (runIK call reads (preIK call reads st)).1 = true →
      (moveIK call reads ticks st).2 = []) := by
  constructor
  · intro call reads st h
    cases call with
    | q4 Px Py Pz =>
        simp only [runIK] at h ⊢
        rw [getIK_Q4_fail Px Py Pz st h]
        exact ⟨rfl, rfl⟩
    | gam Px Py Pz g =>
        simp only [runIK] at h ⊢
        rw [getIK_Gamma_fail Px Py Pz g st h]
        exact ⟨rfl, rfl⟩
    | rd Px Py Pz Rd =>
        simp only [runIK] at h ⊢
        rw [getIK_Rd_fail Px Py Pz Rd st h]
        exact ⟨rfl, rfl⟩
    | rdBase Px Py Pz Rb =>
        simp only [runIK] at h ⊢
        rw [getIK_RdBase_fail Px Py Pz Rb st h]
        exact ⟨rfl, rfl⟩
    | gamCtrl Px Py Pz g =>
        simp only [runIK] at h ⊢
        exact getIK_Gamma_Controller_fail reads Px Py Pz g st h
  · intro call reads ticks st h
    unfold moveIK
    rcases hr : runIK call reads (preIK call reads st) with ⟨b, st2⟩
    rw [hr] at h
    simp only at h
    subst h
    simp

theorem D_sq : D ^ 2 = 221 := by
  unfold D L1 L2
  rw [Real.sq_sqrt (by norm_num)]
  norm_num

theorem D_pos : 0 < D := by
  unfold D L1 L2
  apply Real.sqrt_pos.2
  norm_num

theorem sa_sq_add_ca_sq : sa ^ 2 + ca ^ 2 = 1 := Real.sin_sq_add_cos_sq alpha

theorem q4_cond_neg (X Z c4 s4 : ℝ) (h4 : s4 ^ 2 + c4 ^ 2 = 1)
    (hfar : (D + L3 + L4) ^ 2 < X ^ 2 + Z ^ 2) :
    (L3 * ca + L4 * ca * c4 + L4 * sa * s4) ^ 2 +
      (L3 * sa - L4 * ca * s4 + L4 * sa * c4) ^ 2 -
      ((X ^ 2 + Z ^ 2 - D ^ 2 - L3 ^ 2 - L4 ^ 2 - 2 * L3 * L4 * c4) / (2 * D)) ^ 2 < 0 := by
  have hD2 := D_sq
  have hDpos := D_pos
  have hsc := sa_sq_add_ca_sq
  rw [show L3 = (14 : ℝ) from rfl, show L4 = (14 : ℝ) from rfl] at hfar ⊢
  have hab : (14 * ca + 14 * ca * c4 + 14 * sa * s4) ^ 2 +
      (14 * sa - 14 * ca * s4 + 14 * sa * c4) ^ 2 = 392 + 392 * c4 := by
    linear_combination (196 + 196 * c4 ^ 2 + 196 * s4 ^ 2 + 392 * c4) * hsc + 196 * h4
  have hc4 : c4 ≤ 1 := by nlinarith [sq_nonneg s4, sq_nonneg (c4 - 1)]
  have hnum : 56 * D < X ^ 2 + Z ^ 2 - D ^ 2 - 14 ^ 2 - 14 ^ 2 - 2 * 14 * 14 * c4 := by
    nlinarith [hfar, hc4]
  have hc : 28 < (X ^ 2 + Z ^ 2 - D ^ 2 - 14 ^ 2 - 14 ^ 2 - 2 * 14 * 14 * c4) / (2 * D) := by
    rw [lt_div_iff₀ (by linarith : (0 : ℝ) < 2 * D)]
    linarith
  have hc2 : 784 < ((X ^ 2 + Z ^ 2 - D ^ 2 - 14 ^ 2 - 14 ^ 2 - 2 * 14 * 14 * c4) / (2 * D)) ^ 2 := by
    nlinarith [hc]
  rw [hab]
  nlinarith [hc2, hc4]

theorem getIK_Q4_far (Px Py Pz : ℝ) (st : ArmState ℝ)
    (h : D + L3 + L4 < Real.sqrt (Px ^ 2 + Py ^ 2 + (Pz - L0) ^ 2)) :
    (getIK_Q4 Px Py Pz st).1 = true := by
  have hX2 : Real.sqrt (Px ^ 2 + Py ^ 2) ^ 2 = Px ^ 2 + Py ^ 2 := Real.sq_sqrt (by positivity)
  have hR2 : Real.sqrt (Px ^ 2 + Py ^ 2 + (Pz - L0) ^ 2) ^ 2 =
      Px ^ 2 + Py ^ 2 + (Pz - L0) ^ 2 := Real.sq_sqrt (by positivity)
  have h0 : (0 : ℝ) ≤ D + L3 + L4 := by
    have := D_pos
    rw [show L3 = (14 : ℝ) from rfl, show L4 = (14 : ℝ) from rfl]
    linarith
  have hfar : (D + L3 + L4) ^ 2 < Real.sqrt (Px ^ 2 + Py ^ 2) ^ 2 + (Pz - L0) ^ 2 := by
    rw [hX2, show Px ^ 2 + Py ^ 2 + (Pz - L0) ^ 2 =
      Real.sqrt (Px ^ 2 + Py ^ 2 + (Pz - L0) ^ 2) ^ 2 from hR2.symm]
    nlinarith [h, h0]
  have hcond := q4_cond_neg (Real.sqrt (Px ^ 2 + Py ^ 2)) (Pz - L0)
    (Real.cos (st.current_angle 3)) (Real.sin (st.current_angle 3))
    (Real.sin_sq_add_cos_sq (st.current_angle 3)) hfar
  simp only [getIK_Q4]
  rw [if_pos hcond]

theorem gam_c_gt_one (Px Py Pz g : ℝ)
    (h : D + L3 + L4 < Real.sqrt (Px ^ 2 + Py ^ 2 + (Pz - L0) ^ 2)) :
    1 < ((Real.sqrt (Px ^ 2 + Py ^ 2) - L4 * Real.cos g) ^ 2 +
        (Pz - L0 + L4 * Real.sin g) ^ 2 - D ^ 2 - L3 ^ 2) / (2 * D * L3) := by
  have hD2 := D_sq
  have hDpos := D_pos
  have hr2 : Real.sqrt (Px ^ 2 + Py ^ 2) ^ 2 = Px ^ 2 + Py ^ 2 := Real.sq_sqrt (by positivity)
  have hr0 : 0 ≤ Real.sqrt (Px ^ 2 + Py ^ 2) := Real.sqrt_nonneg _
  have hR2 : Real.sqrt (Px ^ 2 + Py ^ 2 + (Pz - L0) ^ 2) ^ 2 =
      Px ^ 2 + Py ^ 2 + (Pz - L0) ^ 2 := Real.sq_sqrt (by positivity)
  have hR0 : 0 ≤ Real.sqrt (Px ^ 2 + Py ^ 2 + (Pz - L0) ^ 2) := Real.sqrt_nonneg _
  have hg1 : Real.sin g ^ 2 + Real.cos g ^ 2 = 1 := Real.sin_sq_add_cos_sq g
  set r := Real.sqrt (Px ^ 2 + Py ^ 2) with hrdef
  set R := Real.sqrt (Px ^ 2 + Py ^ 2 + (Pz - L0) ^ 2) with hRdef
  set z := Pz - L0 with hzdef
  have hRrz : R ^ 2 = r ^ 2 + z ^ 2 := by rw [hR2, hr2]
  have hxy : (r * Real.cos g - z * Real.sin g) ^ 2 +
      (r * Real.sin g + z * Real.cos g) ^ 2 = R ^ 2 := by
    rw [hRrz]
    linear_combination (r ^ 2 + z ^ 2) * hg1
  have hC : r * Real.cos g - z * Real.sin g ≤ R := by
    nlinarith [hxy, sq_nonneg (r * Real.sin g + z * Real.cos g), hR0]
  rw [show L3 = (14 : ℝ) from rfl, show L4 = (14 : ℝ) from rfl] at h ⊢
  have hXZ : (r - 14 * Real.cos g) ^ 2 + (z + 14 * Real.sin g) ^ 2 =
      R ^ 2 - 28 * (r * Real.cos g - z * Real.sin g) + 196 := by
    rw [hRrz]
    linear_combination 196 * hg1
  rw [lt_div_iff₀ (by nlinarith [hDpos] : (0 : ℝ) < 2 * D * 14)]
  nlinarith [hXZ, hC, h, hDpos, hD2]

theorem getIK_Gamma_far (Px Py Pz g : ℝ) (st : ArmState ℝ)
    (h : D + L3 + L4 < Real.sqrt (Px ^ 2 + Py ^ 2 + (Pz - L0) ^ 2)) :
    (getIK_Gamma Px Py Pz g st).1 = true := by
  have hc := gam_c_gt_one Px Py Pz g h
  simp only [getIK_Gamma]
  rw [if_pos (lt_of_lt_of_le hc (le_abs_self _))]

theorem getIK_Gamma_Controller_far (reads : ℕ → ℤ) (Px Py Pz g : ℝ) (st : ArmState ℝ)
    (h : D + L3 + L4 < Real.sqrt (Px ^ 2 + Py ^ 2 + (Pz - L0) ^ 2)) :
    (getIK_Gamma_Controller reads Px Py Pz g st).1 = true := by
  have hc := gam_c_gt_one Px Py Pz g h
  simp only [getIK_Gamma_Controller]
  rw [if_pos (lt_of_lt_of_le hc (le_abs_self _))]

theorem getIK_Rd_far (Px Py Pz : ℝ) (Rd : Matrix (Fin 3) (Fin 3) ℝ) (st : ArmState ℝ)
    (h : D + L3 + L4 < Real.sqrt (Px ^ 2 + Py ^ 2 + (Pz - L0) ^ 2)) :
    (getIK_Rd Px Py Pz Rd st).1 = true := by
  rcases hg : getIK_Gamma Px Py Pz (atan2 (-Rd 2 0) (Rd 0 0)) st with ⟨b, st1⟩
  have hb : b = true := by
    have := getIK_Gamma_far Px Py Pz (atan2 (-Rd 2 0) (Rd 0 0)) st h
    rwa [hg] at this
  subst hb
  simp [getIK_Rd, hg]

theorem getIK_RdBase_far (Px Py Pz : ℝ) (Rb : Matrix (Fin 3) (Fin 3) ℝ) (st : ArmState ℝ)
    (h : D + L3 + L4 < Real.sqrt (Px ^ 2 + Py ^ 2 + (Pz - L0) ^ 2)) :
    (getIK_RdBase Px Py Pz Rb st).1 = true := by
  simp only [getIK_RdBase]
  exact getIK_Rd_far Px Py Pz _ st h

/-- C7: a target farther from the shoulder than the maximum reach D + L3 + L4
makes every IK variant fail, for every bus oracle, every held wrist-pitch
value and rotation matrix (both carried in the call or state). -/
theorem unreachable_target_fails (call : IKCall) (reads : ℕ → ℤ) (st : ArmState ℝ)
    (h : D + L3 + L4 <
      Real.sqrt (call.target.1 ^ 2 + call.target.2.1 ^ 2 + (call.target.2.2 - L0) ^ 2)) :
    (runIK call reads st).1 = true := by
  cases call with
  | q4 Px Py Pz =>
      simp only [IKCall.target] at h
      exact getIK_Q4_far Px Py Pz st h
  | gam Px Py Pz g =>
      simp only [IKCall.target] at h
      exact getIK_Gamma_far Px Py Pz g st h
  | rd Px Py Pz Rd =>
      simp only [IKCall.target] at h
      exact getIK_Rd_far Px Py Pz Rd st h
  | rdBase Px Py Pz Rb =>
      simp only [IKCall.target] at h
      exact getIK_RdBase_far Px Py Pz Rb st h
  | gamCtrl Px Py Pz g =>
      simp only [IKCall.target] at h
      exact getIK_Gamma_Controller_far reads Px Py Pz g st h

/-- All-zero controller state over ℝ. -/
def stR0 : ArmState ℝ :=
  ⟨fun _ => 0, fun _ => 0, fun _ => 0, fun _ => 0, fun _ => 0, false⟩

theorem far_1000 : D + L3 + L4 <
    Real.sqrt ((1000 : ℝ) ^ 2 + (0 : ℝ) ^ 2 + ((0 : ℝ) - L0) ^ 2) := by
  have hD15 : D < 15 := by
    unfold D L1 L2
    rw [show (15 : ℝ) = Real.sqrt 225 from by
      rw [show (225 : ℝ) = 15 ^ 2 from by norm_num, Real.sqrt_sq (by norm_num)]]
    apply Real.sqrt_lt_sqrt (by positivity)
    norm_num
  have h43 : (43 : ℝ) < Real.sqrt ((1000 : ℝ) ^ 2 + (0 : ℝ) ^ 2 + ((0 : ℝ) - L0) ^ 2) := by
    apply Real.lt_sqrt_of_sq_lt
    norm_num [L0]
  rw [show L3 = (14 : ℝ) from rfl, show L4 = (14 : ℝ) from rfl]
  linarith

/-- Witness for C7: the target (1000, 0, 0) is beyond reach and every variant
fails on it. -/
theorem unreachable_target_fails_witness :
    (D + L3 + L4 < Real.sqrt ((1000 : ℝ) ^ 2 + (0 : ℝ) ^ 2 + ((0 : ℝ) - L0) ^ 2)) ∧
    (runIK (IKCall.q4 1000 0 0) (fun _ => 2047) stR0).1 = true ∧
    (runIK (IKCall.gam 1000 0 0 0) (fun _ => 2047) stR0).1 = true ∧
    (runIK (IKCall.rd 1000 0 0 1) (fun _ => 2047) stR0).1 = true ∧
    (runIK (IKCall.rdBase 1000 0 0 1) (fun _ => 2047) stR0).1 = true ∧
    (runIK (IKCall.gamCtrl 1000 0 0 0) (fun _ => 2047) stR0).1 = true :=
  ⟨far_1000,
    unreachable_target_fails (IKCall.q4 1000 0 0) (fun _ => 2047) stR0 far_1000,
    unreachable_target_fails (IKCall.gam 1000 0 0 0) (fun _ => 2047) stR0 far_1000,
    unreachable_target_fails (IKCall.rd 1000 0 0 1) (fun _ => 2047) stR0 far_1000,
    unreachable_target_fails (IKCall.rdBase 1000 0 0 1) (fun _ => 2047) stR0 far_1000,
    unreachable_target_fails (IKCall.gamCtrl 1000 0 0 0) (fun _ => 2047) stR0 far_1000⟩

/-- Witness for C4: the solve for the unreachable target (1000, 0, 0) fails
and leaves the desired arrays unchanged, and moveArmQ4 for it emits no motion
command. -/
theorem ik_failure_leaves_desired_unchanged_witness :
    ((runIK (IKCall.q4 1000 0 0) (fun _ => 2047) stR0).1 = true ∧
      (runIK (IKCall.q4 1000 0 0) (fun _ => 2047) stR0).2.desired_angle =
        stR0.desired_angle ∧
      (runIK (IKCall.q4 1000 0 0) (fun _ => 2047) stR0).2.desired_position =
        stR0.desired_position) ∧
    ((runIK (IKCall.q4 1000 0 0) (fun _ => 2047)
        (preIK (IKCall.q4 1000 0 0) (fun _ => 2047) stR0)).1 = true ∧
      (moveIK (IKCall.q4 1000 0 0) (fun _ => 2047) [] stR0).2 = []) :=
  have h1 : (runIK (IKCall.q4 1000 0 0) (fun _ => 2047) stR0).1 = true :=
    getIK_Q4_far 1000 0 0 stR0 far_1000
  have h2 : (runIK (IKCall.q4 1000 0 0) (fun _ => 2047)
      (preIK (IKCall.q4 1000 0 0) (fun _ => 2047) stR0)).1 = true :=
    getIK_Q4_far 1000 0 0 _ far_1000
  ⟨⟨h1, ik_failure_leaves_desired_unchanged.1 (IKCall.q4 1000 0 0) (fun _ => 2047) stR0 h1⟩,
    ⟨h2, ik_failure_leaves_desired_unchanged.2 (IKCall.q4 1000 0 0) (fun _ => 2047) [] stR0 h2⟩⟩

theorem normAng_add_two_pi (x : ℝ) : normAng (x + 2 * π) = normAng x := by
  unfold normAng
  rw [Real.sin_add_two_pi, Real.cos_add_two_pi]

theorem normAng_sub_two_pi (x : ℝ) : normAng (x - 2 * π) = normAng x := by
  unfold normAng
  rw [Real.sin_sub_two_pi, Real.cos_sub_two_pi]

theorem normAng_two_arctan (t : ℝ) : normAng (2 * arctan t) = 2 * arctan t :=
  normAng_eq_self
    (by nlinarith [Real.neg_pi_div_two_lt_arctan t, Real.pi_pos])
    (by nlinarith [Real.arctan_lt_pi_div_two t, Real.pi_pos])

theorem D_eq : D = Real.sqrt 221 := by
  unfold D L1 L2
  norm_num

theorem D_gt_14 : 14 < D := by
  rw [D_eq, show (14 : ℝ) = Real.sqrt 196 from by
    rw [show (196 : ℝ) = 14 ^ 2 from by norm_num, Real.sqrt_sq (by norm_num)]]
  exact Real.sqrt_lt_sqrt (by norm_num) (by norm_num)

theorem D_lt_15 : D < 15 := by
  rw [D_eq]
  rw [Real.sqrt_lt' (by norm_num)]
  norm_num

theorem alpha_eq : alpha = arctan (14 / 5) := by
  unfold alpha L1 L2
  rw [atan2_pos_x _ _ (by norm_num)]

theorem sqrt25 : Real.sqrt 25 = 5 := by
  rw [show (25 : ℝ) = 5 ^ 2 from by norm_num, Real.sqrt_sq (by norm_num)]

theorem ca_eq : ca = 5 / D := by
  rw [show ca = Real.cos alpha from rfl, alpha_eq, Real.cos_arctan, D_eq]
  rw [show (1 + (14 / 5 : ℝ) ^ 2) = 221 / 25 from by norm_num]
  rw [Real.sqrt_div (by norm_num : (0 : ℝ) ≤ 221) 25, sqrt25, one_div_div]

theorem sa_eq : sa = 14 / D := by
  have hne : Real.sqrt 221 ≠ 0 := by positivity
  rw [show sa = Real.sin alpha from rfl, alpha_eq, Real.sin_arctan, D_eq]
  rw [show (1 + (14 / 5 : ℝ) ^ 2) = 221 / 25 from by norm_num]
  rw [Real.sqrt_div (by norm_num : (0 : ℝ) ≤ 221) 25, sqrt25]
  field_simp

/-- A concrete arm state for exercising getIK_Q4 at target (0, 0, 25):
current_angle 3 (wrist pitch) is 0, current_angle 4 (wrist roll) is 1,
current_angle 5 (gripper) is 2, and the adjacent memory slot read by the
out-of-bounds access current_angle[6] holds 3. -/
def stC5 : ArmState ℝ :=
  ⟨fun _ => 0, fun _ => 0,
    fun i => if i = 4 then 1 else if i = 5 then 2 else if i = 6 then 3 else 0,
    fun _ => 0, fun _ => 0, false⟩

/-- Bounds for the square root of the discriminant cond = 132055/884 that
getIK_Q4 computes at target (0, 0, 25) with wrist pitch 0. -/
theorem s2_facts :
    Real.sqrt (132055 / 884 : ℝ) ^ 2 = 132055 / 884 ∧
    12 < Real.sqrt (132055 / 884 : ℝ) ∧ Real.sqrt (132055 / 884 : ℝ) < 13 := by
  refine ⟨Real.sq_sqrt (by norm_num), ?_, ?_⟩
  · rw [show (12 : ℝ) = Real.sqrt 144 from by
      rw [show (144 : ℝ) = 12 ^ 2 from by norm_num, Real.sqrt_sq (by norm_num)]]
    exact Real.sqrt_lt_sqrt (by norm_num) (by norm_num)
  · rw [Real.sqrt_lt' (by norm_num)]
    norm_num

/-- Closed form of the shoulder stage at X = 0, Z = 16, c4 = 1, s4 = 0 when
the elbow angle is written as 2*arctan t. -/
theorem q4Shoulder_eval (t : ℝ) :
    q4Shoulder 0 16 1 0 (2 * arctan t) =
      ((33 - 23 * t ^ 2) / (1 + t ^ 2), (14 * t ^ 2 + 56 * t + 14) / (1 + t ^ 2),
        atan2 (16 * ((33 - 23 * t ^ 2) / (1 + t ^ 2)))
          (16 * ((14 * t ^ 2 + 56 * t + 14) / (1 + t ^ 2)))) := by
  have hDne : D ≠ 0 := ne_of_gt D_pos
  have ht : (1 + t ^ 2 : ℝ) ≠ 0 := by positivity
  unfold q4Shoulder
  rw [cos_two_arctan, sin_two_arctan, ca_eq, sa_eq,
    show L3 = (14 : ℝ) from rfl, show L4 = (14 : ℝ) from rfl]
  simp only [Prod.mk.injEq]
  refine ⟨by field_simp; ring, by field_simp; ring, ?_⟩
  congr 1
  · field_simp
    ring
  · field_simp
    ring

set_option maxHeartbeats 2000000 in
/-- At target (0, 0, 25) from stC5 the code's getIK_Q4 succeeds: the first
elbow candidate passes the elbow limits, the shoulder angle fails its limit,
and the retry computed from the overwritten shoulder-stage globals passes
both remaining checks. -/
theorem q4_eval_code :
    (getIK_Q4 0 0 25 stC5).1 = false := by
  have hD2 := D_sq
  have hDpos := D_pos
  have hDne : D ≠ 0 := ne_of_gt hDpos
  simp only [getIK_Q4]
  rw [show stC5.current_angle 3 = 0 from rfl]
  rw [Real.sin_zero, Real.cos_zero]
  rw [show Real.sqrt ((0:ℝ)^2 + 0^2) = 0 from by norm_num]
  rw [show L3 = (14:ℝ) from rfl, show L4 = (14:ℝ) from rfl, show L0 = (9:ℝ) from rfl]
  rw [show ((25:ℝ) - 9) = 16 from by norm_num]
  rw [ca_eq, sa_eq]
  rw [show (14 * (5 / D) + 14 * (5 / D) * 1 + 14 * (14 / D) * 0 : ℝ) = 140 / D from by ring]
  rw [show (14 * (14 / D) - 14 * (5 / D) * 0 + 14 * (14 / D) * 1 : ℝ) = 392 / D from by ring]
  rw [show (((0:ℝ))^2 + 16^2 - D^2 - 14^2 - 14^2 - 2*14*14*1) / (2*D) = -749/(2*D) from by
    rw [hD2]
    norm_num]
  rw [show ((140/D)^2 + (392/D)^2 - (-749/(2*D))^2 : ℝ) = 132055/884 from by
    field_simp
    linear_combination (-528220 * D ^ 2 : ℝ) * hD2]
  rw [if_neg (by norm_num : ¬(132055 / 884 : ℝ) < 0)]
  rw [show (140 / D + -749 / (2 * D) : ℝ) = -469 / (2 * D) from by field_simp; ring]
  -- first elbow candidate: second quadrant atan2
  obtain ⟨hs2sq, hs2lo, hs2hi⟩ := s2_facts
  have hv_neg : (-469 / (2 * D) : ℝ) < 0 :=
    div_neg_of_neg_of_pos (by norm_num) (by linarith)
  have h392 : (26 : ℝ) < 392 / D := by
    rw [lt_div_iff₀ hDpos]
    nlinarith [D_lt_15]
  have hu_nonneg : (0 : ℝ) ≤ 392 / D - Real.sqrt (132055 / 884) := by linarith
  rw [atan2_neg_x_nonneg_y _ _ hv_neg hu_nonneg]
  rw [show (2 * (arctan ((392 / D - Real.sqrt (132055 / 884)) / (-469 / (2 * D))) + π) : ℝ) =
    2 * arctan ((392 / D - Real.sqrt (132055 / 884)) / (-469 / (2 * D))) + 2 * π from by ring]
  rw [normAng_add_two_pi, normAng_two_arctan]
  rw [show ((392 / D - Real.sqrt (132055 / 884)) / (-469 / (2 * D)) : ℝ) =
    (2 * D * Real.sqrt (132055 / 884) - 784) / 469 from by field_simp; ring]
  have hw_sq : (2 * D * Real.sqrt (132055 / 884)) ^ 2 = 132055 := by
    rw [mul_pow, mul_pow, hs2sq, hD2]
    norm_num
  have hw_pos : 0 < 2 * D * Real.sqrt (132055 / 884) := by
    have : (0 : ℝ) < Real.sqrt (132055 / 884) := by linarith
    positivity
  have hw_lo : 363 < 2 * D * Real.sqrt (132055 / 884) := by nlinarith [hw_sq, hw_pos]
  have hw_hi : 2 * D * Real.sqrt (132055 / 884) < 364 := by nlinarith [hw_sq, hw_pos]
  set t1 : ℝ := (2 * D * Real.sqrt (132055 / 884) - 784) / 469 with ht1def
  have ht1a : -(421 / 469 : ℝ) < t1 := by
    rw [ht1def, show (-(421 / 469 : ℝ)) = (363 - 784) / 469 from by norm_num,
      div_lt_div_right (by norm_num : (0 : ℝ) < 469)]
    linarith
  have ht1b : t1 < -(420 / 469 : ℝ) := by
    rw [ht1def, show (-(420 / 469 : ℝ)) = (364 - 784) / 469 from by norm_num,
      div_lt_div_right (by norm_num : (0 : ℝ) < 469)]
    linarith
  clear_value t1
  clear ht1def
  have hq3L0 : q3Lim 0 = -(181 * π / 360) := rfl
  have hq3L1 : q3Lim 1 = 5 * π / 6 := rfl
  have hq2L0 : q2Lim 0 = -(181 * π / 360) := rfl
  have hq2L1 : q2Lim 1 = 181 * π / 360 := rfl
  have hat1_lo : -(π / 4) < arctan t1 := by
    have h := Real.arctan_strictMono (show (-1 : ℝ) < t1 from by linarith)
    rwa [Real.arctan_neg, Real.arctan_one] at h
  have hat1_hi : arctan t1 < 0 := by
    have h := Real.arctan_strictMono (show t1 < 0 from by linarith)
    rwa [Real.arctan_zero] at h
  rw [if_neg (by
    rw [hq3L0, hq3L1]
    push_neg
    constructor
    · linarith [Real.pi_pos]
    · linarith [Real.pi_pos])]
  rw [q4Shoulder_eval t1]
  dsimp only
  have hden1 : (0 : ℝ) < 1 + t1 ^ 2 := by positivity
  have hA1num : (0 : ℝ) < 33 - 23 * t1 ^ 2 := by nlinarith
  have hB1num : 14 * t1 ^ 2 + 56 * t1 + 14 < 0 := by nlinarith
  have hA1 : (0 : ℝ) < 16 * ((33 - 23 * t1 ^ 2) / (1 + t1 ^ 2)) := by positivity
  have hB1 : 16 * ((14 * t1 ^ 2 + 56 * t1 + 14) / (1 + t1 ^ 2)) < 0 := by
    have := div_neg_of_neg_of_pos hB1num hden1
    linarith
  rw [atan2_neg_x_nonneg_y _ _ hB1 hA1.le]
  have hq2out : arctan (16 * ((33 - 23 * t1 ^ 2) / (1 + t1 ^ 2)) /
      (16 * ((14 * t1 ^ 2 + 56 * t1 + 14) / (1 + t1 ^ 2)))) + π > q2Lim 1 := by
    rw [hq2L1]
    have hBne : (14 * t1 ^ 2 + 56 * t1 + 14 : ℝ) ≠ 0 := ne_of_lt hB1num
    have hdne : (1 + t1 ^ 2 : ℝ) ≠ 0 := ne_of_gt hden1
    have hratio : 16 * ((33 - 23 * t1 ^ 2) / (1 + t1 ^ 2)) /
        (16 * ((14 * t1 ^ 2 + 56 * t1 + 14) / (1 + t1 ^ 2))) =
        (33 - 23 * t1 ^ 2) / (14 * t1 ^ 2 + 56 * t1 + 14) := by
      field_simp
      ring
    rw [hratio]
    have hge : (-1 : ℝ) ≤ (33 - 23 * t1 ^ 2) / (14 * t1 ^ 2 + 56 * t1 + 14) := by
      rw [le_div_iff_of_neg hB1num]
      nlinarith
    have harc : -(π / 4) ≤ arctan ((33 - 23 * t1 ^ 2) / (14 * t1 ^ 2 + 56 * t1 + 14)) := by
      have h := Real.arctan_strictMono.monotone hge
      rwa [Real.arctan_neg, Real.arctan_one] at h
    linarith [Real.pi_pos]
  rw [if_pos (Or.inr hq2out)]
  -- retry stage: u2 = B + sqrt(cond) < 0, v2 = A + c < 0
  have hBlt : (14 * t1 ^ 2 + 56 * t1 + 14) / (1 + t1 ^ 2) < -13 := by
    rw [div_lt_iff hden1]
    nlinarith
  have hBge : (-14 : ℝ) ≤ (14 * t1 ^ 2 + 56 * t1 + 14) / (1 + t1 ^ 2) := by
    rw [le_div_iff hden1]
    nlinarith [sq_nonneg (t1 + 1)]
  have hAlt : (33 - 23 * t1 ^ 2) / (1 + t1 ^ 2) < 9 := by
    rw [div_lt_iff hden1]
    nlinarith
  have hc24 : (24 : ℝ) < 749 / (2 * D) := by
    rw [lt_div_iff (by positivity)]
    nlinarith [D_lt_15]
  have hu2neg : (14 * t1 ^ 2 + 56 * t1 + 14) / (1 + t1 ^ 2) + √(132055 / 884) < 0 := by
    linarith [hs2hi]
  have hnegd : (-749 : ℝ) / (2 * D) = -(749 / (2 * D)) := by ring
  have hv2neg : (33 - 23 * t1 ^ 2) / (1 + t1 ^ 2) + -749 / (2 * D) < 0 := by
    rw [hnegd]
    linarith
  rw [atan2_neg_x_neg_y _ _ hv2neg hu2neg]
  set t2 : ℝ := ((14 * t1 ^ 2 + 56 * t1 + 14) / (1 + t1 ^ 2) + √(132055 / 884)) /
      ((33 - 23 * t1 ^ 2) / (1 + t1 ^ 2) + -749 / (2 * D)) with ht2def
  have ht2a : 0 < t2 := div_pos_of_neg_of_neg hu2neg hv2neg
  have ht2b : t2 < 1 := by
    rw [ht2def, div_lt_one_of_neg hv2neg]
    linarith [hs2lo, hnegd]
  clear_value t2
  clear ht2def
  rw [show (2 : ℝ) * (arctan t2 - π) = 2 * arctan t2 - 2 * π from by ring,
    normAng_sub_two_pi, normAng_two_arctan]
  have hat2_lo : 0 < arctan t2 := by
    have h := Real.arctan_strictMono ht2a
    rwa [Real.arctan_zero] at h
  have hat2_hi : arctan t2 < π / 4 := by
    have h := Real.arctan_strictMono ht2b
    rwa [Real.arctan_one] at h
  rw [if_neg (by
    push_neg
    rw [hq3L0, hq3L1]
    constructor
    · linarith [Real.pi_pos]
    · linarith [Real.pi_pos])]
  rw [q4Shoulder_eval t2]
  dsimp only
  have hden2 : (0 : ℝ) < 1 + t2 ^ 2 := by positivity
  have hA2num : (0 : ℝ) < 33 - 23 * t2 ^ 2 := by nlinarith
  have hB2num : (0 : ℝ) < 14 * t2 ^ 2 + 56 * t2 + 14 := by nlinarith
  have hB2 : (0 : ℝ) < 16 * ((14 * t2 ^ 2 + 56 * t2 + 14) / (1 + t2 ^ 2)) := by positivity
  rw [atan2_pos_x _ _ hB2]
  rw [if_neg (by
    push_neg
    rw [hq2L0, hq2L1]
    constructor
    · have := Real.neg_pi_div_two_lt_arctan
        (16 * ((33 - 23 * t2 ^ 2) / (1 + t2 ^ 2)) / (16 * ((14 * t2 ^ 2 + 56 * t2 + 14) / (1 + t2 ^ 2))))
      linarith [Real.pi_pos]
    · have := Real.arctan_lt_pi_div_two
        (16 * ((33 - 23 * t2 ^ 2) / (1 + t2 ^ 2)) / (16 * ((14 * t2 ^ 2 + 56 * t2 + 14) / (1 + t2 ^ 2))))
      linarith [Real.pi_pos])]

/-- Whenever getIK_Q4 succeeds, the wrist-roll and gripper slots of
desired_angle receive current_angle 5 and current_angle 6. -/
theorem getIK_Q4_wrist (Px Py Pz : ℝ) (st : ArmState ℝ)
    (h : (getIK_Q4 Px Py Pz st).1 = false) :
    (getIK_Q4 Px Py Pz st).2.desired_angle 4 = st.current_angle 5 ∧
    (getIK_Q4 Px Py Pz st).2.desired_angle 5 = st.current_angle 6 := by
  simp only [getIK_Q4] at h ⊢
  split_ifs at h ⊢ <;> simp_all [writeIK4, Function.update]

set_option maxHeartbeats 2000000 in
/-- On the same input the claim-faithful variant fails: its retry candidate
2*atan2(b + sqrt(cond), a + c) built from the original elbow coefficients
violates the elbow limit. -/
theorem q4_claim_eval :
    (getIK_Q4_claim 0 0 25 stC5).1 = true := by
  have hD2 := D_sq
  have hDpos := D_pos
  have hDne : D ≠ 0 := ne_of_gt hDpos
  simp only [getIK_Q4_claim]
  rw [show stC5.current_angle 3 = 0 from rfl]
  rw [Real.sin_zero, Real.cos_zero]
  rw [show Real.sqrt ((0:ℝ)^2 + 0^2) = 0 from by norm_num]
  rw [show L3 = (14:ℝ) from rfl, show L4 = (14:ℝ) from rfl, show L0 = (9:ℝ) from rfl]
  rw [show ((25:ℝ) - 9) = 16 from by norm_num]
  rw [ca_eq, sa_eq]
  rw [show (14 * (5 / D) + 14 * (5 / D) * 1 + 14 * (14 / D) * 0 : ℝ) = 140 / D from by ring]
  rw [show (14 * (14 / D) - 14 * (5 / D) * 0 + 14 * (14 / D) * 1 : ℝ) = 392 / D from by ring]
  rw [show (((0:ℝ))^2 + 16^2 - D^2 - 14^2 - 14^2 - 2*14*14*1) / (2*D) = -749/(2*D) from by
    rw [hD2]
    norm_num]
  rw [show ((140/D)^2 + (392/D)^2 - (-749/(2*D))^2 : ℝ) = 132055/884 from by
    field_simp
    linear_combination (-528220 * D ^ 2 : ℝ) * hD2]
  rw [if_neg (by norm_num : ¬(132055 / 884 : ℝ) < 0)]
  rw [show (140 / D + -749 / (2 * D) : ℝ) = -469 / (2 * D) from by field_simp; ring]
  -- first elbow candidate: second quadrant atan2
  obtain ⟨hs2sq, hs2lo, hs2hi⟩ := s2_facts
  have hv_neg : (-469 / (2 * D) : ℝ) < 0 :=
    div_neg_of_neg_of_pos (by norm_num) (by linarith)
  have h392 : (26 : ℝ) < 392 / D := by
    rw [lt_div_iff₀ hDpos]
    nlinarith [D_lt_15]
  have hu_nonneg : (0 : ℝ) ≤ 392 / D - Real.sqrt (132055 / 884) := by linarith
  rw [atan2_neg_x_nonneg_y _ _ hv_neg hu_nonneg]
  rw [show (2 * (arctan ((392 / D - Real.sqrt (132055 / 884)) / (-469 / (2 * D))) + π) : ℝ) =
    2 * arctan ((392 / D - Real.sqrt (132055 / 884)) / (-469 / (2 * D))) + 2 * π from by ring]
  rw [normAng_add_two_pi, normAng_two_arctan]
  rw [show ((392 / D - Real.sqrt (132055 / 884)) / (-469 / (2 * D)) : ℝ) =
    (2 * D * Real.sqrt (132055 / 884) - 784) / 469 from by field_simp; ring]
  have hw_sq : (2 * D * Real.sqrt (132055 / 884)) ^ 2 = 132055 := by
    rw [mul_pow, mul_pow, hs2sq, hD2]
    norm_num
  have hw_pos : 0 < 2 * D * Real.sqrt (132055 / 884) := by
    have : (0 : ℝ) < Real.sqrt (132055 / 884) := by linarith
    positivity
  have hw_lo : 363 < 2 * D * Real.sqrt (132055 / 884) := by nlinarith [hw_sq, hw_pos]
  have hw_hi : 2 * D * Real.sqrt (132055 / 884) < 364 := by nlinarith [hw_sq, hw_pos]
  set t1 : ℝ := (2 * D * Real.sqrt (132055 / 884) - 784) / 469 with ht1def
  have ht1a : -(421 / 469 : ℝ) < t1 := by
    rw [ht1def, show (-(421 / 469 : ℝ)) = (363 - 784) / 469 from by norm_num,
      div_lt_div_right (by norm_num : (0 : ℝ) < 469)]
    linarith
  have ht1b : t1 < -(420 / 469 : ℝ) := by
    rw [ht1def, show (-(420 / 469 : ℝ)) = (364 - 784) / 469 from by norm_num,
      div_lt_div_right (by norm_num : (0 : ℝ) < 469)]
    linarith
  clear_value t1
  clear ht1def
  have hq3L0 : q3Lim 0 = -(181 * π / 360) := rfl
  have hq3L1 : q3Lim 1 = 5 * π / 6 := rfl
  have hq2L0 : q2Lim 0 = -(181 * π / 360) := rfl
  have hq2L1 : q2Lim 1 = 181 * π / 360 := rfl
  have hat1_lo : -(π / 4) < arctan t1 := by
    have h := Real.arctan_strictMono (show (-1 : ℝ) < t1 from by linarith)
    rwa [Real.arctan_neg, Real.arctan_one] at h
  have hat1_hi : arctan t1 < 0 := by
    have h := Real.arctan_strictMono (show t1 < 0 from by linarith)
    rwa [Real.arctan_zero] at h
  rw [if_neg (by
    rw [hq3L0, hq3L1]
    push_neg
    constructor
    · linarith [Real.pi_pos]
    · linarith [Real.pi_pos])]
  rw [q4Shoulder_eval t1]
  dsimp only
  have hden1 : (0 : ℝ) < 1 + t1 ^ 2 := by positivity
  have hA1num : (0 : ℝ) < 33 - 23 * t1 ^ 2 := by nlinarith
  have hB1num : 14 * t1 ^ 2 + 56 * t1 + 14 < 0 := by nlinarith
  have hA1 : (0 : ℝ) < 16 * ((33 - 23 * t1 ^ 2) / (1 + t1 ^ 2)) := by positivity
  have hB1 : 16 * ((14 * t1 ^ 2 + 56 * t1 + 14) / (1 + t1 ^ 2)) < 0 := by
    have := div_neg_of_neg_of_pos hB1num hden1
    linarith
  rw [atan2_neg_x_nonneg_y _ _ hB1 hA1.le]
  have hq2out : arctan (16 * ((33 - 23 * t1 ^ 2) / (1 + t1 ^ 2)) /
      (16 * ((14 * t1 ^ 2 + 56 * t1 + 14) / (1 + t1 ^ 2)))) + π > q2Lim 1 := by
    rw [hq2L1]
    have hBne : (14 * t1 ^ 2 + 56 * t1 + 14 : ℝ) ≠ 0 := ne_of_lt hB1num
    have hdne : (1 + t1 ^ 2 : ℝ) ≠ 0 := ne_of_gt hden1
    have hratio : 16 * ((33 - 23 * t1 ^ 2) / (1 + t1 ^ 2)) /
        (16 * ((14 * t1 ^ 2 + 56 * t1 + 14) / (1 + t1 ^ 2))) =
        (33 - 23 * t1 ^ 2) / (14 * t1 ^ 2 + 56 * t1 + 14) := by
      field_simp
      ring
    rw [hratio]
    have hge : (-1 : ℝ) ≤ (33 - 23 * t1 ^ 2) / (14 * t1 ^ 2 + 56 * t1 + 14) := by
      rw [le_div_iff_of_neg hB1num]
      nlinarith
    have harc : -(π / 4) ≤ arctan ((33 - 23 * t1 ^ 2) / (14 * t1 ^ 2 + 56 * t1 + 14)) := by
      have h := Real.arctan_strictMono.monotone hge
      rwa [Real.arctan_neg, Real.arctan_one] at h
    linarith [Real.pi_pos]
  rw [if_pos (Or.inr hq2out)]
  have hu3pos : (0 : ℝ) < 392 / D + √(132055 / 884) := by
    have := Real.sqrt_nonneg (132055 / 884 : ℝ)
    linarith
  rw [atan2_neg_x_nonneg_y _ _ hv_neg hu3pos.le]
  set t3 : ℝ := (392 / D + √(132055 / 884)) / (-469 / (2 * D)) with ht3def
  have ht3 : t3 < -√3 := by
    rw [ht3def, div_lt_iff_of_neg hv_neg]
    have hs3 : √3 < 7 / 4 := by
      rw [show (7 / 4 : ℝ) = √((7 / 4) ^ 2) from by rw [Real.sqrt_sq]; norm_num]
      exact Real.sqrt_lt_sqrt (by norm_num) (by norm_num)
    have h1 : -√3 * (-469 / (2 * D)) = √3 * (469 / (2 * D)) := by ring
    have h2 : √3 * (469 / (2 * D)) < (7 / 4) * (469 / (2 * D)) := by
      apply mul_lt_mul_of_pos_right hs3
      positivity
    have h3 : (7 / 4 : ℝ) * (469 / (2 * D)) < 30 := by
      rw [show (7 / 4 : ℝ) * (469 / (2 * D)) = 3283 / (8 * D) from by ring,
        div_lt_iff (by positivity)]
      nlinarith [D_gt_14]
    linarith [hs2lo]
  clear_value t3
  clear ht3def
  rw [show (2 : ℝ) * (arctan t3 + π) = 2 * arctan t3 + 2 * π from by ring,
    normAng_add_two_pi, normAng_two_arctan]
  have harct3 : arctan t3 < -(π / 3) := by
    have h := Real.arctan_strictMono ht3
    rwa [Real.arctan_neg, show Real.arctan (√3) = π / 3 from by
      rw [show (√3 : ℝ) = Real.tan (π / 3) from Real.tan_pi_div_three.symm]
      exact Real.arctan_tan (by linarith [Real.pi_pos]) (by linarith [Real.pi_pos])] at h
  rw [if_pos (Or.inl (by rw [hq3L0]; linarith [Real.pi_pos]))]

/-- C5: refuted (code bug). At target (0, 0, 25) from stC5, getIK_Q4 succeeds,
yet desired_angle 4 receives current_angle 5 (the gripper angle, 2) rather
than current_angle 4 (the wrist roll, 1), and desired_angle 5 receives the
out-of-bounds slot current_angle 6 (here 3) rather than current_angle 5.
The claim says the success path copies current_angle 4 and current_angle 5 —
matching the source comments getServoAngle(4)/getServoAngle(5) at lines
946-947 — but the code indexes current_angle[5] and current_angle[6]. -/
theorem wrist_carryover_shifted :
    (getIK_Q4 0 0 25 stC5).1 = false ∧
    (getIK_Q4 0 0 25 stC5).2.desired_angle 4 ≠ stC5.current_angle 4 ∧
    (getIK_Q4 0 0 25 stC5).2.desired_angle 5 ≠ stC5.current_angle 5 ∧
    (getIK_Q4 0 0 25 stC5).2.desired_angle 4 = stC5.current_angle 5 ∧
    (getIK_Q4 0 0 25 stC5).2.desired_angle 5 = stC5.current_angle 6 := by
  obtain ⟨h4, h5⟩ := getIK_Q4_wrist 0 0 25 stC5 q4_eval_code
  have hc4 : stC5.current_angle 4 = 1 := by norm_num [stC5]
  have hc5 : stC5.current_angle 5 = 2 := by norm_num [stC5]
  have hc6 : stC5.current_angle 6 = 3 := by norm_num [stC5]
  refine ⟨q4_eval_code, ?_, ?_, h4, h5⟩
  · rw [h4, hc5, hc4]
    norm_num
  · rw [h5, hc6, hc5]
    norm_num

/-- C6: refuted (code bug). At target (0, 0, 25) from stC5 the first elbow
candidate passes the elbow limits but its shoulder angle fails, so the
in-loop retry runs. The code's retry (getIK_Q4) computes the fallback from
the globals a and b that the shoulder stage of lines 912-913 has already
overwritten, and succeeds; the retry the claim describes (getIK_Q4_claim),
which reuses the same a, b, c and cond that produced the first candidate,
fails the elbow limit. The two behaviours disagree on this input, so the
fallback is not computed from the same coefficients. -/
theorem retry_uses_clobbered_coefficients :
    (getIK_Q4 0 0 25 stC5).1 = false ∧ (getIK_Q4_claim 0 0 25 stC5).1 = true :=
  ⟨q4_eval_code, q4_claim_eval⟩

end IK

end WidowX
